import Mathlib

/-!
Verification of the flight-wit-processor core (wit-processor crate) against its
natural-language specification.

The definitions below are a shallow embedding of the Rust source:

* types.rs   — document model, validation / batch / compatibility reports
* validator.rs — WitValidator and all validate_* rules
* parser.rs  — WitParser configuration and the parse_file / parse_directory control flow
* batch.rs   — batch_validate_directory_with_config
* lib.rs     — dependency-graph builder, cycle detector, compatibility analyzer

Modelling conventions:
* Rust Vec becomes List, PathBuf becomes String.
* HashSet values used only through insert/contains are modelled as lists with
  the same membership semantics.
* SystemTime fields (parsed_at, validated_at, analyzed_at) and wall-clock
  durations are not modelled; duration fields are carried but set to 0.
* Field and function names follow the source; the Rust field name from of
  DependencyEdge is a Lean keyword and is rendered src (to is rendered tgt).
* Report mutation (add_error and friends) is modelled by explicit state
  passing: each validator function returns the list of issues it emits in
  emission order, and applyIssues folds them into the report exactly as the
  add_error / add_warning / add_info calls do (every issue is constructed by
  ValidationIssue.error / warning / info, so the severity tag determines
  which add_* method the source invokes).
-/

/-! ## Document model (types.rs) -/

/-- Issue severity levels (types.rs IssueSeverity). -/
inductive IssueSeverity where
  | Error
  | Warning
  | Info
deriving Repr, DecidableEq

/-- Individual validation issue (types.rs ValidationIssue). -/
structure ValidationIssue where
  severity : IssueSeverity
  code : String
  message : String
  path : Option String
  line : Option Nat
  column : Option Nat
  context : Option String
deriving Repr, DecidableEq

/-- Constructor ValidationIssue::error. -/
def ValidationIssue.error (code message : String) : ValidationIssue :=
  { severity := .Error, code := code, message := message,
    path := none, line := none, column := none, context := none }

/-- Constructor ValidationIssue::warning. -/
def ValidationIssue.warning (code message : String) : ValidationIssue :=
  { severity := .Warning, code := code, message := message,
    path := none, line := none, column := none, context := none }

/-- Constructor ValidationIssue::info. -/
def ValidationIssue.info (code message : String) : ValidationIssue :=
  { severity := .Info, code := code, message := message,
    path := none, line := none, column := none, context := none }

/-- Builder with_location (line/column always None at the call sites we model). -/
def ValidationIssue.with_location (i : ValidationIssue) (path : String)
    (line column : Option Nat) : ValidationIssue :=
  { i with path := some path, line := line, column := column }

/-- Builder with_context. -/
def ValidationIssue.with_context (i : ValidationIssue) (context : String) : ValidationIssue :=
  { i with context := some context }

/-- Validation performance metrics (types.rs ValidationMetrics). -/
structure ValidationMetrics where
  duration_ms : Nat
  peak_memory_bytes : Nat
  documents_validated : Nat
  interfaces_validated : Nat
  types_validated : Nat
deriving Repr, DecidableEq

/-- Default for ValidationMetrics. -/
def ValidationMetrics.default : ValidationMetrics :=
  { duration_ms := 0, peak_memory_bytes := 0, documents_validated := 0,
    interfaces_validated := 0, types_validated := 0 }

/-- Validation report (types.rs ValidationReport, minus the validated_at timestamp). -/
structure ValidationReport where
  is_valid : Bool
  errors : List ValidationIssue
  warnings : List ValidationIssue
  info : List ValidationIssue
  metrics : ValidationMetrics
deriving Repr, DecidableEq

/-- ValidationReport::new. -/
def ValidationReport.new : ValidationReport :=
  { is_valid := true, errors := [], warnings := [], info := [],
    metrics := ValidationMetrics.default }

/-- ValidationReport::add_error — clears the flag and pushes the issue. -/
def ValidationReport.add_error (r : ValidationReport) (issue : ValidationIssue) :
    ValidationReport :=
  { r with is_valid := false, errors := r.errors ++ [issue] }

/-- ValidationReport::add_warning. -/
def ValidationReport.add_warning (r : ValidationReport) (issue : ValidationIssue) :
    ValidationReport :=
  { r with warnings := r.warnings ++ [issue] }

/-- ValidationReport::add_info. -/
def ValidationReport.add_info (r : ValidationReport) (issue : ValidationIssue) :
    ValidationReport :=
  { r with info := r.info ++ [issue] }

/-- ValidationReport::is_valid() — the stored flag AND emptiness of errors. -/
def ValidationReport.isValid (r : ValidationReport) : Bool :=
  r.is_valid && r.errors.isEmpty

/-- ValidationReport::total_issues(). -/
def ValidationReport.total_issues (r : ValidationReport) : Nat :=
  r.errors.length + r.warnings.length + r.info.length

/-- One mutation step on a ValidationReport: the three add_* methods. -/
inductive ReportOp where
  | addError (issue : ValidationIssue)
  | addWarning (issue : ValidationIssue)
  | addInfo (issue : ValidationIssue)

/-- Apply one ReportOp. -/
def ValidationReport.applyOp (r : ValidationReport) : ReportOp → ValidationReport
  | .addError i => r.add_error i
  | .addWarning i => r.add_warning i
  | .addInfo i => r.add_info i

/-- Apply a sequence of add_error / add_warning / add_info calls in order. -/
def ValidationReport.applyOps (r : ValidationReport) (ops : List ReportOp) : ValidationReport :=
  ops.foldl ValidationReport.applyOp r

/-- Route an emitted issue to the add_* method matching its constructor, exactly
as the source call sites do. -/
def ValidationReport.applyIssue (r : ValidationReport) (i : ValidationIssue) : ValidationReport :=
  match i.severity with
  | .Error => r.add_error i
  | .Warning => r.add_warning i
  | .Info => r.add_info i

/-- Fold a list of emitted issues into a report. -/
def ValidationReport.applyIssues (r : ValidationReport) (is : List ValidationIssue) :
    ValidationReport :=
  is.foldl ValidationReport.applyIssue r

/-! ## Compatibility report types (types.rs) -/

/-- Details about parameter changes (types.rs ParameterChangeType). -/
inductive ParameterChangeType where
  | Removed
  | TypeChanged (old_type new_type : String)
  | Added
deriving Repr, DecidableEq

/-- Parameter change details (types.rs ParameterChange). -/
structure ParameterChange where
  name : String
  change_type : ParameterChangeType
deriving Repr, DecidableEq

/-- Return type change details (types.rs ReturnTypeChange). -/
structure ReturnTypeChange where
  old_type : Option String
  new_type : Option String
deriving Repr, DecidableEq

/-- Function signature change details (types.rs SignatureChange). -/
structure SignatureChange where
  parameter_changes : List ParameterChange
  return_type_change : Option ReturnTypeChange
deriving Repr, DecidableEq

/-- Types of field changes (types.rs FieldChangeType). -/
inductive FieldChangeType where
  | Removed
  | TypeChanged (old_type new_type : String)
  | Added
deriving Repr, DecidableEq

/-- Record field change details (types.rs FieldChange). -/
structure FieldChange where
  name : String
  change_type : FieldChangeType
deriving Repr, DecidableEq

/-- Types of case changes (types.rs CaseChangeType). -/
inductive CaseChangeType where
  | Removed
  | PayloadChanged (old_payload new_payload : Option String)
  | Added
deriving Repr, DecidableEq

/-- Variant case change details (types.rs CaseChange). -/
structure CaseChange where
  name : String
  change_type : CaseChangeType
deriving Repr, DecidableEq

/-- Types of enum value changes (types.rs EnumValueChangeType). -/
inductive EnumValueChangeType where
  | Removed
  | Added
deriving Repr, DecidableEq

/-- Enum value change details (types.rs EnumValueChange). -/
structure EnumValueChange where
  name : String
  change_type : EnumValueChangeType
deriving Repr, DecidableEq

/-- Type definition change details (types.rs TypeChange). -/
inductive TypeChange where
  | KindChanged (old_kind new_kind : String)
  | RecordChanged (field_changes : List FieldChange)
  | VariantChanged (case_changes : List CaseChange)
  | EnumChanged (value_changes : List EnumValueChange)
deriving Repr, DecidableEq

/-- Breaking changes (types.rs BreakingChange). -/
inductive BreakingChange where
  | RemovedInterface (name : String)
  | RemovedFunction (interface function : String)
  | ChangedFunctionSignature (interface function : String) (change : SignatureChange)
  | RemovedType (name : String)
  | ModifiedTypeDefinition (type_name : String) (change : TypeChange)
  | RemovedEnumVariant (enum_name variant : String)
  | RemovedRecordField (record_name field : String)
  | ChangedRecordFieldType (record_name field old_type new_type : String)
deriving Repr, DecidableEq

/-- Safe additions (types.rs Addition). -/
inductive Addition where
  | AddedInterface (name : String)
  | AddedFunction (interface function : String)
  | AddedType (name : String)
  | AddedEnumVariant (enum_name variant : String)
  | AddedOptionalRecordField (record_name field : String)
  | AddedWorld (name : String)
deriving Repr, DecidableEq

/-- Non-breaking modifications (types.rs Modification). -/
inductive Modification where
  | UpdatedDocumentation (item item_type : String)
  | ReorderedEnumVariants (enum_name : String)
  | ReorderedRecordFields (record_name : String)
deriving Repr, DecidableEq

/-- Version compatibility report (types.rs CompatibilityReport, minus analyzed_at). -/
structure CompatibilityReport where
  compatible : Bool
  breaking_changes : List BreakingChange
  additions : List Addition
  modifications : List Modification
  analysis_duration_ms : Nat
deriving Repr, DecidableEq

/-- CompatibilityReport::new. -/
def CompatibilityReport.new : CompatibilityReport :=
  { compatible := true, breaking_changes := [], additions := [],
    modifications := [], analysis_duration_ms := 0 }

/-- CompatibilityReport::add_breaking_change — clears compatible and pushes. -/
def CompatibilityReport.add_breaking_change (r : CompatibilityReport)
    (change : BreakingChange) : CompatibilityReport :=
  { r with compatible := false, breaking_changes := r.breaking_changes ++ [change] }

/-- CompatibilityReport::add_addition. -/
def CompatibilityReport.add_addition (r : CompatibilityReport) (a : Addition) :
    CompatibilityReport :=
  { r with additions := r.additions ++ [a] }

/-- CompatibilityReport::add_modification. -/
def CompatibilityReport.add_modification (r : CompatibilityReport) (m : Modification) :
    CompatibilityReport :=
  { r with modifications := r.modifications ++ [m] }

/-- CompatibilityReport::has_breaking_changes(). -/
def CompatibilityReport.has_breaking_changes (r : CompatibilityReport) : Bool :=
  !r.breaking_changes.isEmpty

/-- One mutation step on a CompatibilityReport: the three add_* methods used by
check_compatibility. -/
inductive CompatOp where
  | breaking (change : BreakingChange)
  | addition (a : Addition)
  | modification (m : Modification)

/-- Apply one CompatOp. -/
def CompatibilityReport.applyOp (r : CompatibilityReport) : CompatOp → CompatibilityReport
  | .breaking c => r.add_breaking_change c
  | .addition a => r.add_addition a
  | .modification m => r.add_modification m

/-- Apply a sequence of add_breaking_change / add_addition / add_modification
calls in order, starting from any report. -/
def CompatibilityReport.applyOps (r : CompatibilityReport) (ops : List CompatOp) :
    CompatibilityReport :=
  ops.foldl CompatibilityReport.applyOp r

/-! ## Invariant lemmas for the two report state machines -/

/-- Invariant preserved by every ReportOp: the stored flag equals emptiness of
the errors list. -/
theorem validationReport_applyOps_flag_inv (ops : List ReportOp) (r : ValidationReport)
    (h : r.is_valid = r.errors.isEmpty) :
    (r.applyOps ops).is_valid = (r.applyOps ops).errors.isEmpty := by
  induction ops generalizing r with
  | nil => exact h
  | cons op ops ih =>
      apply ih
      cases op <;>
        simp [ValidationReport.applyOps, ValidationReport.applyOp,
          ValidationReport.add_error, ValidationReport.add_warning,
          ValidationReport.add_info, h]

/-- Invariant preserved by every CompatOp: the compatible flag equals emptiness
of the breaking_changes list. -/
theorem compatReport_applyOps_flag_inv (ops : List CompatOp) (r : CompatibilityReport)
    (h : r.compatible = r.breaking_changes.isEmpty) :
    (r.applyOps ops).compatible = (r.applyOps ops).breaking_changes.isEmpty := by
  induction ops generalizing r with
  | nil => exact h
  | cons op ops ih =>
      apply ih
      cases op <;>
        simp [CompatibilityReport.applyOps, CompatibilityReport.applyOp,
          CompatibilityReport.add_breaking_change, CompatibilityReport.add_addition,
          CompatibilityReport.add_modification, h]

/-- C2: for every ValidationReport built from ValidationReport::new by any
sequence of add_error, add_warning and add_info calls, is_valid() returns true
iff the errors list is empty; warnings and info never affect validity. -/
theorem validationReport_isValid_iff_no_errors (ops : List ReportOp) :
    (ValidationReport.new.applyOps ops).isValid = true ↔
      (ValidationReport.new.applyOps ops).errors = [] := by
  have h := validationReport_applyOps_flag_inv ops ValidationReport.new (by rfl)
  simp [ValidationReport.isValid, h, List.isEmpty_iff]

/-- C4: for every CompatibilityReport built from CompatibilityReport::new by any
sequence of add_breaking_change, add_addition and add_modification calls (the
only mutations check_compatibility performs), the compatible flag is false iff
breaking_changes is non-empty; additions and modifications never change it. -/
theorem compatibilityReport_compatible_iff_no_breaking (ops : List CompatOp) :
    (CompatibilityReport.new.applyOps ops).compatible = false ↔
      (CompatibilityReport.new.applyOps ops).breaking_changes ≠ [] := by
  have h := compatReport_applyOps_flag_inv ops CompatibilityReport.new (by rfl)
  constructor
  · intro hc
    rw [hc] at h
    intro hnil
    simp [hnil] at h
  · intro hne
    rw [h]
    simpa [List.isEmpty_iff] using hne

/-! ## WIT type structures (types.rs WitType / WitTypeKind / WitField / WitVariantCase) -/

mutual

/-- A WIT type definition (types.rs WitType): name, kind, documentation. -/
inductive WitType where
  | mk (name : String) (kind : WitTypeKind) (documentation : Option String)

/-- Different kinds of WIT types (types.rs WitTypeKind). -/
inductive WitTypeKind where
  | Primitive (name : String)
  | Record (fields : List WitField)
  | Variant (cases : List WitVariantCase)
  | Enum (values : List String)
  | List (element : WitType)
  | Option (inner : WitType)
  | Result (ok : Option WitType) (err : Option WitType)
  | Tuple (types : List WitType)
  | Reference (name : String)

/-- A record field (types.rs WitField). -/
inductive WitField where
  | mk (name : String) (field_type : WitType) (documentation : Option String)

/-- A variant case (types.rs WitVariantCase). -/
inductive WitVariantCase where
  | mk (name : String) (payload : Option WitType) (documentation : Option String)

end

/-- Accessor for the name field of WitType. -/
def WitType.name : WitType → String
  | .mk n _ _ => n

/-- Accessor for the kind field of WitType. -/
def WitType.kind : WitType → WitTypeKind
  | .mk _ k _ => k

/-- Accessor for the name field of WitField. -/
def WitField.name : WitField → String
  | .mk n _ _ => n

/-- Accessor for the field_type field of WitField. -/
def WitField.field_type : WitField → WitType
  | .mk _ t _ => t

/-- Accessor for the name field of WitVariantCase. -/
def WitVariantCase.name : WitVariantCase → String
  | .mk n _ _ => n

/-- Accessor for the payload field of WitVariantCase. -/
def WitVariantCase.payload : WitVariantCase → Option WitType
  | .mk _ p _ => p

/-- A function parameter (types.rs WitParameter). -/
structure WitParameter where
  name : String
  param_type : WitType

/-- A WIT function definition (types.rs WitFunction). -/
structure WitFunction where
  name : String
  parameters : List WitParameter
  return_type : Option WitType
  documentation : Option String

/-- A WIT interface definition (types.rs WitInterface). -/
structure WitInterface where
  name : String
  functions : List WitFunction
  types : List WitType
  documentation : Option String

/-- A WIT world definition (types.rs WitWorld). -/
structure WitWorld where
  name : String
  imports : List String
  exports : List String
  documentation : Option String

/-- Import kinds (types.rs ImportType). -/
inductive ImportType where
  | Interface
  | World
  | Type
  | Function
deriving Repr, DecidableEq

/-- An import declaration (types.rs WitImport). -/
structure WitImport where
  name : String
  item : String
  import_type : ImportType

/-- Export kinds (types.rs ExportType). -/
inductive ExportType where
  | Interface
  | World
  | Type
  | Function
deriving Repr, DecidableEq

/-- An export declaration (types.rs WitExport). -/
structure WitExport where
  name : String
  item : String
  export_type : ExportType

/-- A parsed WIT document (types.rs WitDocument, minus the parsed_at timestamp). -/
structure WitDocument where
  path : String
  package_name : String
  package_version : Option String
  interfaces : List WitInterface
  worlds : List WitWorld
  imports : List WitImport
  exports : List WitExport
  raw_content : String
  file_size : Nat
  parse_duration_ms : Nat

/-- WitDocument::interface_count. -/
def WitDocument.interface_count (d : WitDocument) : Nat := d.interfaces.length

/-- WitDocument::world_count. -/
def WitDocument.world_count (d : WitDocument) : Nat := d.worlds.length

/-! ## Validator configuration (validator.rs WitValidator) -/

/-- Validator configuration (validator.rs WitValidator). -/
structure WitValidator where
  strict_naming : Bool
  platform_checks : Bool
  dependency_validation : Bool
  performance_checks : Bool
  max_type_depth : Nat
  max_function_params : Nat
  platform_memory_limits : List (String × Nat)
deriving Repr, DecidableEq

/-- WitValidator::new — the default preset. -/
def WitValidator.new : WitValidator :=
  { strict_naming := false, platform_checks := true, dependency_validation := true,
    performance_checks := true, max_type_depth := 10, max_function_params := 20,
    platform_memory_limits :=
      [("dreamcast", 16 * 1024 * 1024), ("psp", 32 * 1024 * 1024),
       ("vita", 512 * 1024 * 1024)] }

/-- WitValidator::strict — strict naming on, depth 5, params 10. -/
def WitValidator.strict : WitValidator :=
  { WitValidator.new with
    strict_naming := true
    max_type_depth := 5
    max_function_params := 10 }

/-- WitValidator::lenient — naming off, platform and performance checks off,
depth 20, params 50. -/
def WitValidator.lenient : WitValidator :=
  { WitValidator.new with
    strict_naming := false
    platform_checks := false
    performance_checks := false
    max_type_depth := 20
    max_function_params := 50 }

/-- validator.rs is_valid_identifier: leading ASCII letter or underscore, then
ASCII alphanumerics, underscore or hyphen. -/
def isValidIdentifier (name : String) : Bool :=
  match name.toList with
  | [] => false
  | c :: rest =>
      (c.isAlpha || c = '_') &&
      rest.all (fun ch => ch.isAlphanum || ch = '_' || ch = '-')

/-- validator.rs is_valid_package_name: split at the first colon, both halves
must be valid identifiers. -/
def isValidPackageName (name : String) : Bool :=
  let l := name.toList
  let ns := l.takeWhile (fun c => c ≠ ':')
  if ns.length = l.length then false
  else
    isValidIdentifier (String.mk ns) &&
    isValidIdentifier (String.mk (l.drop (ns.length + 1)))

/-- validator.rs calculate_type_depth — structural nesting depth of a type kind. -/
def calculateTypeDepth : WitTypeKind → Nat
  | .Primitive _ => 1
  | .Reference _ => 1
  | .Enum _ => 1
  | .List (.mk _ k _) => 1 + calculateTypeDepth k
  | .Option (.mk _ k _) => 1 + calculateTypeDepth k
  | .Result ok err =>
      let okDepth := match ok with
        | some (.mk _ k _) => calculateTypeDepth k
        | none => 0
      let errDepth := match err with
        | some (.mk _ k _) => calculateTypeDepth k
        | none => 0
      1 + max okDepth errDepth
  | .Tuple types =>
      1 + (types.attach.map (fun x =>
            match x with
            | ⟨.mk _ k _, hmem⟩ => calculateTypeDepth k)).foldl max 0
  | .Record fields =>
      1 + (fields.attach.map (fun x =>
            match x with
            | ⟨.mk _ (.mk _ k _) _, hmem⟩ => calculateTypeDepth k)).foldl max 0
  | .Variant cases =>
      1 + (cases.attach.map (fun x =>
            match x with
            | ⟨.mk _ p _, hmem⟩ =>
                match p with
                | some (.mk _ k _) => some (calculateTypeDepth k)
                | none => none)).reduceOption.foldl max 0
termination_by k => sizeOf k
decreasing_by
  all_goals simp_wf
  all_goals try omega
  all_goals
    (first
      | (have h := List.sizeOf_lt_of_mem hmem; simp at h; omega)
      | omega)

/-! ## Validator rules (validator.rs) -/

/-- Severity discriminator used when reasoning about report assembly. -/
def issueIsError (i : ValidationIssue) : Bool :=
  match i.severity with
  | .Error => true
  | _ => false

/-- Enum value loop of validate_enum_type: duplicate check then naming check,
threading the seen set. -/
def validateEnumValues (cfg : WitValidator) (docPath enumName : String) :
    List String → List String → List ValidationIssue
  | [], _ => []
  | v :: rest, seen =>
      (if v ∈ seen then
        [(ValidationIssue.error "DUPLICATE_ENUM_VALUE"
            ("Enum \x27" ++ enumName ++ "\x27 has duplicate value \x27" ++ v ++ "\x27")).with_location
          docPath none none]
       else []) ++
      (if cfg.strict_naming && !isValidIdentifier v then
        [(ValidationIssue.error "INVALID_ENUM_VALUE"
            ("Enum value \x27" ++ v ++ "\x27 is not a valid identifier")).with_location
          docPath none none]
       else []) ++
      validateEnumValues cfg docPath enumName rest (v :: seen)

mutual

/-- validator.rs validate_type: depth ceiling with early return, optional strict
name check, then kind dispatch. -/
def validateType (cfg : WitValidator) (docPath : String) : WitType → Nat → List ValidationIssue
  | .mk tname kind _, depth =>
      if depth > cfg.max_type_depth then
        [(ValidationIssue.error "TYPE_TOO_DEEP"
            ("Type \x27" ++ tname ++ "\x27 exceeds maximum nesting depth of " ++
              toString cfg.max_type_depth)).with_location docPath none none]
      else
        (if cfg.strict_naming && !isValidIdentifier tname then
          [(ValidationIssue.error "INVALID_TYPE_NAME"
              ("Type name \x27" ++ tname ++ "\x27 is not a valid identifier")).with_location
            docPath none none]
         else []) ++
        (match kind with
         | .Record fields =>
             (if fields.isEmpty then
               [(ValidationIssue.warning "EMPTY_RECORD"
                   ("Record type \x27" ++ tname ++ "\x27 has no fields")).with_location
                 docPath none none]
              else []) ++
             validateRecordFields cfg docPath tname fields [] depth
         | .Variant cases =>
             (if cases.isEmpty then
               [(ValidationIssue.error "EMPTY_VARIANT"
                   ("Variant type \x27" ++ tname ++ "\x27 has no cases")).with_location
                 docPath none none]
              else []) ++
             validateVariantCases cfg docPath tname cases [] depth
         | .Enum values =>
             (if values.isEmpty then
               [(ValidationIssue.error "EMPTY_ENUM"
                   ("Enum type \x27" ++ tname ++ "\x27 has no values")).with_location
                 docPath none none]
              else []) ++
             validateEnumValues cfg docPath tname values []
         | .List element => validateType cfg docPath element (depth + 1)
         | .Option inner => validateType cfg docPath inner (depth + 1)
         | .Result (some okT) (some errT) =>
             validateType cfg docPath okT (depth + 1) ++
             validateType cfg docPath errT (depth + 1)
         | .Result (some okT) none => validateType cfg docPath okT (depth + 1)
         | .Result none (some errT) => validateType cfg docPath errT (depth + 1)
         | .Result none none => []
         | .Tuple types => validateTupleTypes cfg docPath types depth
         | .Primitive _ => []
         | .Reference _ => [])
  termination_by t _ => sizeOf t

/-- Field loop of validate_record_type: duplicate check, naming check, then
recursive validation of the field type at depth + 1. -/
def validateRecordFields (cfg : WitValidator) (docPath recName : String) :
    List WitField → List String → Nat → List ValidationIssue
  | [], _, _ => []
  | .mk fname ftype _ :: rest, seen, depth =>
      (if fname ∈ seen then
        [(ValidationIssue.error "DUPLICATE_FIELD"
            ("Record \x27" ++ recName ++ "\x27 has duplicate field \x27" ++ fname ++ "\x27")).with_location
          docPath none none]
       else []) ++
      (if cfg.strict_naming && !isValidIdentifier fname then
        [(ValidationIssue.error "INVALID_FIELD_NAME"
            ("Field name \x27" ++ fname ++ "\x27 is not a valid identifier")).with_location
          docPath none none]
       else []) ++
      validateType cfg docPath ftype (depth + 1) ++
      validateRecordFields cfg docPath recName rest (fname :: seen) depth
  termination_by fields _ _ => sizeOf fields

/-- Case loop of validate_variant_type: duplicate check, naming check, then
recursive validation of the payload type (when present) at depth + 1. -/
def validateVariantCases (cfg : WitValidator) (docPath varName : String) :
    List WitVariantCase → List String → Nat → List ValidationIssue
  | [], _, _ => []
  | .mk cname payload _ :: rest, seen, depth =>
      (if cname ∈ seen then
        [(ValidationIssue.error "DUPLICATE_CASE"
            ("Variant \x27" ++ varName ++ "\x27 has duplicate case \x27" ++ cname ++ "\x27")).with_location
          docPath none none]
       else []) ++
      (if cfg.strict_naming && !isValidIdentifier cname then
        [(ValidationIssue.error "INVALID_CASE_NAME"
            ("Case name \x27" ++ cname ++ "\x27 is not a valid identifier")).with_location
          docPath none none]
       else []) ++
      (match payload with
       | some p => validateType cfg docPath p (depth + 1)
       | none => []) ++
      validateVariantCases cfg docPath varName rest (cname :: seen) depth
  termination_by cases _ _ => sizeOf cases

/-- Element loop of the Tuple arm of validate_type: each element at depth + 1. -/
def validateTupleTypes (cfg : WitValidator) (docPath : String) :
    List WitType → Nat → List ValidationIssue
  | [], _ => []
  | t :: rest, depth =>
      validateType cfg docPath t (depth + 1) ++ validateTupleTypes cfg docPath rest depth
  termination_by types _ => sizeOf types

end

/-- Parameter loop of validate_function: duplicate check then naming check,
threading the seen set. -/
def validateParamList (cfg : WitValidator) (docPath fnName : String) :
    List WitParameter → List String → List ValidationIssue
  | [], _ => []
  | p :: rest, seen =>
      (if p.name ∈ seen then
        [(ValidationIssue.error "DUPLICATE_PARAMETER"
            ("Function \x27" ++ fnName ++ "\x27 has duplicate parameter \x27" ++ p.name ++ "\x27")).with_location
          docPath none none]
       else []) ++
      (if cfg.strict_naming && !isValidIdentifier p.name then
        [(ValidationIssue.error "INVALID_PARAMETER_NAME"
            ("Parameter name \x27" ++ p.name ++ "\x27 is not a valid identifier")).with_location
          docPath none none]
       else []) ++
      validateParamList cfg docPath fnName rest (p.name :: seen)

/-- validator.rs validate_function: naming check, parameter-count ceiling
(warning), then the parameter loop. -/
def validateFunctionIssues (cfg : WitValidator) (docPath : String) (f : WitFunction) :
    List ValidationIssue :=
  (if cfg.strict_naming && !isValidIdentifier f.name then
    [(ValidationIssue.error "INVALID_FUNCTION_NAME"
        ("Function name \x27" ++ f.name ++ "\x27 is not a valid identifier")).with_location
      docPath none none]
   else []) ++
  (if f.parameters.length > cfg.max_function_params then
    [((ValidationIssue.warning "TOO_MANY_PARAMETERS"
        ("Function \x27" ++ f.name ++ "\x27 has " ++ toString f.parameters.length ++
          " parameters (max recommended: " ++ toString cfg.max_function_params ++ ")")).with_location
      docPath none none).with_context "Consider grouping parameters into a record type"]
   else []) ++
  validateParamList cfg docPath f.name f.parameters []

/-- Shared-set loop of check_interface_duplicates: each entry is the inserted
key (prefixed with function: or type:) together with the bare name used in the
message. -/
def dupNameLoop (docPath ifaceName : String) :
    List (String × String) → List String → List ValidationIssue
  | [], _ => []
  | (key, bare) :: rest, seen =>
      (if key ∈ seen then
        [(ValidationIssue.error "DUPLICATE_NAME"
            ("Interface \x27" ++ ifaceName ++ "\x27 has duplicate name \x27" ++ bare ++ "\x27")).with_location
          docPath none none]
       else []) ++
      dupNameLoop docPath ifaceName rest (key :: seen)

/-- validator.rs check_interface_duplicates: one HashSet shared by the function
loop and the type loop, but keys are prefixed with the item kind, so functions
and types live in distinct key spaces. -/
def checkInterfaceDuplicates (docPath : String) (iface : WitInterface) :
    List ValidationIssue :=
  dupNameLoop docPath iface.name
    (iface.functions.map (fun f => ("function:" ++ f.name, f.name)) ++
     iface.types.map (fun t => ("type:" ++ t.name, t.name))) []

/-- validator.rs validate_interface: naming check, empty-interface warning,
function loop, type loop (depth 0), duplicate-name check. -/
def validateInterfaceIssues (cfg : WitValidator) (docPath : String)
    (iface : WitInterface) : List ValidationIssue :=
  (if cfg.strict_naming && !isValidIdentifier iface.name then
    [(ValidationIssue.error "INVALID_INTERFACE_NAME"
        ("Interface name \x27" ++ iface.name ++ "\x27 is not a valid identifier")).with_location
      docPath none none]
   else []) ++
  (if iface.functions.isEmpty && iface.types.isEmpty then
    [(ValidationIssue.warning "EMPTY_INTERFACE"
        ("Interface \x27" ++ iface.name ++ "\x27 contains no functions or types")).with_location
      docPath none none]
   else []) ++
  (iface.functions.map (validateFunctionIssues cfg docPath)).flatten ++
  (iface.types.map (fun t => validateType cfg docPath t 0)).flatten ++
  checkInterfaceDuplicates docPath iface

/-- validator.rs validate_world: naming check and empty-world warning. -/
def validateWorldIssues (cfg : WitValidator) (docPath : String) (w : WitWorld) :
    List ValidationIssue :=
  (if cfg.strict_naming && !isValidIdentifier w.name then
    [(ValidationIssue.error "INVALID_WORLD_NAME"
        ("World name \x27" ++ w.name ++ "\x27 is not a valid identifier")).with_location
      docPath none none]
   else []) ++
  (if w.imports.isEmpty && w.exports.isEmpty then
    [(ValidationIssue.warning "EMPTY_WORLD"
        ("World \x27" ++ w.name ++ "\x27 has no imports or exports")).with_location
      docPath none none]
   else [])

/-- validator.rs validate_document_structure: empty-document warning,
large-file warning, slow-parse info. -/
def validateDocumentStructure (doc : WitDocument) : List ValidationIssue :=
  (if doc.interfaces.isEmpty && doc.worlds.isEmpty then
    [(ValidationIssue.warning "EMPTY_DOCUMENT"
        "Document contains no interfaces or worlds").with_location doc.path none none]
   else []) ++
  (if doc.file_size > 1024 * 1024 then
    [(ValidationIssue.warning "LARGE_FILE"
        ("File size is large (" ++ toString (doc.file_size / 1024) ++ "KB)")).with_location
      doc.path none none]
   else []) ++
  (if doc.parse_duration_ms > 1000 then
    [(ValidationIssue.info "SLOW_PARSE"
        ("File took " ++ toString doc.parse_duration_ms ++ "ms to parse")).with_location
      doc.path none none]
   else [])

/-- validator.rs validate_package: package-name format check (strict only) and
missing-version warning. -/
def validatePackageIssues (cfg : WitValidator) (doc : WitDocument) : List ValidationIssue :=
  (if cfg.strict_naming && !isValidPackageName doc.package_name then
    [((ValidationIssue.error "INVALID_PACKAGE_NAME"
        ("Package name \x27" ++ doc.package_name ++ "\x27 does not follow naming conventions")).with_location
      doc.path none none).with_context
        "Package names should be in format \x27namespace:name\x27 with kebab-case"]
   else []) ++
  (match doc.package_version with
   | none =>
      [((ValidationIssue.warning "MISSING_VERSION"
          "Package does not specify a version").with_location doc.path none none).with_context
        "Consider adding version information for better dependency management"]
   | some _ => [])

/-- validator.rs validate_platform_constraints: info advisory for every type
whose kind is a List. -/
def validatePlatformConstraints (doc : WitDocument) : List ValidationIssue :=
  (doc.interfaces.map (fun iface =>
    (iface.types.map (fun t =>
      match t.kind with
      | .List _ =>
          [((ValidationIssue.info "UNBOUNDED_LIST"
              ("Type \x27" ++ t.name ++
                "\x27 uses unbounded list, consider size limits for constrained platforms")).with_location
            doc.path none none).with_context "Dreamcast and PSP have limited memory"]
      | _ => [])).flatten)).flatten

/-- validator.rs validate_performance_characteristics: warning for every type
whose calculated nesting depth exceeds 5. -/
def validatePerformanceCharacteristics (doc : WitDocument) : List ValidationIssue :=
  (doc.interfaces.map (fun iface =>
    (iface.types.map (fun t =>
      let depth := calculateTypeDepth t.kind
      if depth > 5 then
        [(ValidationIssue.warning "DEEP_TYPE_NESTING"
            ("Type \x27" ++ t.name ++ "\x27 has nesting depth of " ++ toString depth ++
              ", which may impact performance")).with_location doc.path none none]
      else [])).flatten)).flatten

/-- All issues emitted by WitValidator::validate for one document, in emission
order.  validate_cross_references is a TODO in the source and emits nothing. -/
def WitValidator.validateIssues (cfg : WitValidator) (doc : WitDocument) :
    List ValidationIssue :=
  validateDocumentStructure doc ++
  validatePackageIssues cfg doc ++
  (doc.interfaces.map (validateInterfaceIssues cfg doc.path)).flatten ++
  (doc.worlds.map (validateWorldIssues cfg doc.path)).flatten ++
  (if cfg.platform_checks then validatePlatformConstraints doc else []) ++
  (if cfg.performance_checks then validatePerformanceCharacteristics doc else [])

/-- validator.rs WitValidator::validate: fold the emitted issues into a fresh
report, then fill in the metrics (duration not modelled, set to 0). -/
def WitValidator.validate (cfg : WitValidator) (doc : WitDocument) : ValidationReport :=
  let r := ValidationReport.new.applyIssues (cfg.validateIssues doc)
  { r with
    metrics :=
      { r.metrics with
        duration_ms := 0
        documents_validated := 1
        interfaces_validated := doc.interfaces.length
        types_validated := (doc.interfaces.map (fun i => i.types.length)).sum } }

/-- validator.rs WitValidator::validate_all: per-document validation merged into
one report.  Merging every individual report with add_error / add_warning /
add_info preserves the per-severity lists and flag exactly as folding the
concatenated emission lists does, because the three severity classes are routed
to three disjoint lists in emission order.  Cross-document dependency
validation is a TODO in the source and emits nothing. -/
def WitValidator.validateAll (cfg : WitValidator) (docs : List WitDocument) :
    ValidationReport :=
  let r := ValidationReport.new.applyIssues (docs.map (cfg.validateIssues)).flatten
  { r with
    metrics :=
      { r.metrics with
        duration_ms := 0
        documents_validated := docs.length
        interfaces_validated := (docs.map (fun d => d.interfaces.length)).sum
        types_validated :=
          (docs.map (fun d => (d.interfaces.map (fun i => i.types.length)).sum)).sum } }

/-! ## Concrete documents used to exercise the validator -/

/-- A small document wrapper: versioned package with valid identifiers. -/
def mkTestDoc (ifs : List WitInterface) (ws : List WitWorld) : WitDocument :=
  { path := "test.wit", package_name := "test:pkg", package_version := some "1.0.0",
    interfaces := ifs, worlds := ws, imports := [], exports := [], raw_content := "",
    file_size := 100, parse_duration_ms := 10 }

/-- A variant type with no cases. -/
def emptyVariantType : WitType := .mk "v" (.Variant []) none

/-- A record with two fields both named x, each of an empty variant type. -/
def dupFieldRecord : WitType :=
  .mk "deep" (.Record [.mk "x" emptyVariantType none, .mk "x" emptyVariantType none]) none

/-- A chain of n single-field records ending in dupFieldRecord, so that
dupFieldRecord is validated at depth n. -/
def chainRecord : Nat → WitType
  | 0 => dupFieldRecord
  | n + 1 => .mk "t" (.Record [.mk "f" (chainRecord n) none]) none

/-- Document whose only type buries dupFieldRecord at validation depth 6: past
the strict depth ceiling (5) but within the default (10) and lenient (20)
ceilings. -/
def deepDoc : WitDocument := mkTestDoc [⟨"i", [], [chainRecord 6], none⟩] []

/-- Document with one interface defining two types both named entry. -/
def twoTypesEntryDoc : WitDocument :=
  mkTestDoc
    [⟨"api", [], [.mk "entry" (.Primitive "u32") none, .mk "entry" (.Primitive "u64") none],
      none⟩] []

/-- Document with one interface defining a function and a type both named entry. -/
def funTypeEntryDoc : WitDocument :=
  mkTestDoc
    [⟨"api", [⟨"entry", [], none, none⟩], [.mk "entry" (.Primitive "u32") none], none⟩] []

/-- C9: empty variants and empty enums are Errors (invalidating the document),
while empty interfaces, empty records, empty worlds and empty documents are
only Warnings (leaving the document valid when no other errors exist). -/
theorem validator_empty_shape_severities (tn iname wname : String) :
    (((WitValidator.new.validate (mkTestDoc [⟨iname, [], [.mk tn (.Variant []) none], none⟩] [])).errors.map
        (fun i => i.code) = ["EMPTY_VARIANT"]) ∧
      (WitValidator.new.validate (mkTestDoc [⟨iname, [], [.mk tn (.Variant []) none], none⟩] [])).isValid = false) ∧
    (((WitValidator.new.validate (mkTestDoc [⟨iname, [], [.mk tn (.Enum []) none], none⟩] [])).errors.map
        (fun i => i.code) = ["EMPTY_ENUM"]) ∧
      (WitValidator.new.validate (mkTestDoc [⟨iname, [], [.mk tn (.Enum []) none], none⟩] [])).isValid = false) ∧
    ((WitValidator.new.validate (mkTestDoc [⟨iname, [], [], none⟩] [])).errors = [] ∧
      "EMPTY_INTERFACE" ∈ (WitValidator.new.validate (mkTestDoc [⟨iname, [], [], none⟩] [])).warnings.map
        (fun i => i.code) ∧
      (WitValidator.new.validate (mkTestDoc [⟨iname, [], [], none⟩] [])).isValid = true) ∧
    ((WitValidator.new.validate (mkTestDoc [⟨iname, [], [.mk tn (.Record []) none], none⟩] [])).errors = [] ∧
      "EMPTY_RECORD" ∈ (WitValidator.new.validate (mkTestDoc [⟨iname, [], [.mk tn (.Record []) none], none⟩] [])).warnings.map
        (fun i => i.code) ∧
      (WitValidator.new.validate (mkTestDoc [⟨iname, [], [.mk tn (.Record []) none], none⟩] [])).isValid = true) ∧
    ((WitValidator.new.validate (mkTestDoc [] [⟨wname, [], [], none⟩])).errors = [] ∧
      "EMPTY_WORLD" ∈ (WitValidator.new.validate (mkTestDoc [] [⟨wname, [], [], none⟩])).warnings.map
        (fun i => i.code) ∧
      (WitValidator.new.validate (mkTestDoc [] [⟨wname, [], [], none⟩])).isValid = true) ∧
    ((WitValidator.new.validate (mkTestDoc [] [])).errors = [] ∧
      "EMPTY_DOCUMENT" ∈ (WitValidator.new.validate (mkTestDoc [] [])).warnings.map
        (fun i => i.code) ∧
      (WitValidator.new.validate (mkTestDoc [] [])).isValid = true) := by
  refine ⟨⟨?_, ?_⟩, ⟨?_, ?_⟩, ⟨?_, ?_, ?_⟩, ⟨?_, ?_, ?_⟩, ⟨?_, ?_, ?_⟩, ⟨?_, ?_, ?_⟩⟩ <;>
    simp [WitValidator.validate, WitValidator.validateIssues, WitValidator.new, mkTestDoc,
      validateDocumentStructure, validatePackageIssues, validateInterfaceIssues,
      validateWorldIssues, validatePlatformConstraints, validatePerformanceCharacteristics,
      validateType, validateVariantCases, validateEnumValues, validateRecordFields,
      validateFunctionIssues, validateParamList, checkInterfaceDuplicates,
      dupNameLoop, calculateTypeDepth, ValidationReport.applyIssues, ValidationReport.applyIssue,
      ValidationReport.new, ValidationReport.add_error, ValidationReport.add_warning,
      ValidationReport.add_info, ValidationIssue.error, ValidationIssue.warning,
      ValidationIssue.info, ValidationIssue.with_location, ValidationIssue.with_context,
      ValidationReport.isValid, WitType.kind, WitType.name]

/-- C5 counterexample: one interface defining a function named entry and a type
named entry produces no error at all — in particular no DUPLICATE_NAME — because
check_interface_duplicates prefixes function keys with function: and type keys
with type:, so the two kinds do not share a namespace. -/
theorem duplicate_name_shared_namespace_cex :
    (WitValidator.new.validate funTypeEntryDoc).errors = [] := by
  simp [WitValidator.validate, WitValidator.validateIssues, WitValidator.new, mkTestDoc,
    funTypeEntryDoc, validateDocumentStructure, validatePackageIssues, validateInterfaceIssues,
    validateWorldIssues, validatePlatformConstraints, validatePerformanceCharacteristics,
    validateType, validateVariantCases, validateEnumValues, validateRecordFields,
    validateFunctionIssues, validateParamList, checkInterfaceDuplicates,
    dupNameLoop, calculateTypeDepth, ValidationReport.applyIssues, ValidationReport.applyIssue,
    ValidationReport.new, ValidationReport.add_error, ValidationReport.add_warning,
    ValidationReport.add_info, ValidationIssue.error, ValidationIssue.warning,
    ValidationIssue.info, ValidationIssue.with_location, ValidationIssue.with_context,
    ValidationReport.isValid, WitType.kind, WitType.name]

/-- C5 amended: duplicates are detected within one per-kind namespace.  Two
types both named entry yield exactly one DUPLICATE_NAME error and an invalid
report, while a function and a type sharing the name entry yield no error
(function and type names are tracked under distinct function:/type: keys). -/
theorem duplicate_name_per_kind_namespace :
    ((WitValidator.new.validate twoTypesEntryDoc).errors.map (fun i => i.code) =
      ["DUPLICATE_NAME"]) ∧
    (WitValidator.new.validate twoTypesEntryDoc).isValid = false ∧
    (WitValidator.new.validate funTypeEntryDoc).errors = [] := by
  refine ⟨?_, ?_, ?_⟩ <;>
    simp [WitValidator.validate, WitValidator.validateIssues, WitValidator.new, mkTestDoc,
      funTypeEntryDoc, twoTypesEntryDoc, validateDocumentStructure, validatePackageIssues,
      validateInterfaceIssues, validateWorldIssues, validatePlatformConstraints,
      validatePerformanceCharacteristics, validateType, validateVariantCases,
      validateEnumValues, validateRecordFields, validateFunctionIssues, validateParamList,
      checkInterfaceDuplicates, dupNameLoop, calculateTypeDepth,
      ValidationReport.applyIssues, ValidationReport.applyIssue, ValidationReport.new,
      ValidationReport.add_error, ValidationReport.add_warning, ValidationReport.add_info,
      ValidationIssue.error, ValidationIssue.warning, ValidationIssue.info,
      ValidationIssue.with_location, ValidationIssue.with_context, ValidationReport.isValid,
      WitType.kind, WitType.name]

/-- C3 counterexample: on deepDoc the strict preset reports strictly fewer
errors (one TYPE_TOO_DEEP, which early-returns and hides the buried issues)
than the default preset (one DUPLICATE_FIELD plus two EMPTY_VARIANT). -/
theorem preset_monotonicity_cex :
    (WitValidator.strict.validate deepDoc).errors.length = 1 ∧
    (WitValidator.new.validate deepDoc).errors.length = 3 ∧
    (WitValidator.strict.validate deepDoc).errors.length <
      (WitValidator.new.validate deepDoc).errors.length := by
  have hid : ∀ s, s = "t" ∨ s = "i" ∨ s = "deep" ∨ s = "x" ∨ s = "v" ∨ s = "f" →
      isValidIdentifier s = true := by
    intro s hs
    rcases hs with h | h | h | h | h | h <;> subst h <;> decide
  have hpkg : isValidPackageName "test:pkg" = true := by decide
  refine ⟨?_, ?_, ?_⟩ <;>
    simp [WitValidator.validate, WitValidator.validateIssues, WitValidator.new,
      WitValidator.strict, mkTestDoc, deepDoc, chainRecord, dupFieldRecord, emptyVariantType,
      validateDocumentStructure, validatePackageIssues, validateInterfaceIssues,
      validateWorldIssues, validatePlatformConstraints, validatePerformanceCharacteristics,
      validateType, validateVariantCases, validateEnumValues, validateRecordFields,
      validateFunctionIssues, validateParamList, checkInterfaceDuplicates,
      dupNameLoop, calculateTypeDepth, ValidationReport.applyIssues, ValidationReport.applyIssue,
      ValidationReport.new, ValidationReport.add_error, ValidationReport.add_warning,
      ValidationReport.add_info, ValidationIssue.error, ValidationIssue.warning,
      ValidationIssue.info, ValidationIssue.with_location, ValidationIssue.with_context,
      ValidationReport.isValid, WitType.kind, WitType.name,
      hid "t" (by tauto), hid "i" (by tauto), hid "deep" (by tauto), hid "x" (by tauto),
      hid "v" (by tauto), hid "f" (by tauto), hpkg]

/-! ## Depth-bounded documents and preset monotonicity (amended C3) -/

mutual

/-- Specification-side predicate: every validate_type call reached from
validating this type at the given starting depth stays at depth at most 5, the
strict ceiling — so no preset (ceilings 5, 10, 20) ever emits TYPE_TOO_DEEP. -/
def typeFits : WitType → Nat → Bool
  | .mk _ kind _, depth =>
      decide (depth ≤ 5) &&
      (match kind with
       | .Record fields => fieldsFit fields depth
       | .Variant cases => casesFit cases depth
       | .List element => typeFits element (depth + 1)
       | .Option inner => typeFits inner (depth + 1)
       | .Result (some okT) (some errT) =>
           typeFits okT (depth + 1) && typeFits errT (depth + 1)
       | .Result (some okT) none => typeFits okT (depth + 1)
       | .Result none (some errT) => typeFits errT (depth + 1)
       | .Result none none => true
       | .Tuple types => tupleFits types depth
       | .Primitive _ => true
       | .Reference _ => true
       | .Enum _ => true)
  termination_by t _ => sizeOf t

/-- Companion of typeFits for record field lists. -/
def fieldsFit : List WitField → Nat → Bool
  | [], _ => true
  | .mk _ ftype _ :: rest, depth => typeFits ftype (depth + 1) && fieldsFit rest depth
  termination_by fields _ => sizeOf fields

/-- Companion of typeFits for variant case lists. -/
def casesFit : List WitVariantCase → Nat → Bool
  | [], _ => true
  | .mk _ payload _ :: rest, depth =>
      (match payload with
       | some p => typeFits p (depth + 1)
       | none => true) && casesFit rest depth
  termination_by cases _ => sizeOf cases

/-- Companion of typeFits for tuple element lists. -/
def tupleFits : List WitType → Nat → Bool
  | [], _ => true
  | t :: rest, depth => typeFits t (depth + 1) && tupleFits rest depth
  termination_by types _ => sizeOf types

end

/-- Every type defined in every interface of the document fits within the
strict depth ceiling. -/
def fitsDoc (doc : WitDocument) : Bool :=
  doc.interfaces.all (fun i => i.types.all (fun t => typeFits t 0))

/-- Number of Error-severity issues in an emission list. -/
def eCnt (l : List ValidationIssue) : Nat := (l.filter issueIsError).length

theorem eCnt_append (a b : List ValidationIssue) : eCnt (a ++ b) = eCnt a + eCnt b := by
  simp [eCnt, List.filter_append]

/-- Folding an emission list into a report appends exactly its Error-severity
issues to the errors list. -/
theorem ValidationReport.applyIssues_errors (is : List ValidationIssue) :
    ∀ r : ValidationReport, (r.applyIssues is).errors = r.errors ++ is.filter issueIsError := by
  induction is with
  | nil => intro r; simp [ValidationReport.applyIssues]
  | cons i rest ih =>
      intro r
      have step : ValidationReport.applyIssues r (i :: rest) =
          ValidationReport.applyIssues (r.applyIssue i) rest := rfl
      rw [step, ih]
      rcases hsev : i.severity with _ | _ | _ <;>
        simp [ValidationReport.applyIssue, hsev, issueIsError,
          ValidationReport.add_error, ValidationReport.add_warning, ValidationReport.add_info,
          List.filter_cons]

/-- The errors list of WitValidator::validate is the Error-filtered emission
list, so its length is eCnt of the emissions. -/
theorem WitValidator.validate_errors_length (cfg : WitValidator) (doc : WitDocument) :
    (cfg.validate doc).errors.length = eCnt (cfg.validateIssues doc) := by
  simp [WitValidator.validate, ValidationReport.applyIssues_errors, ValidationReport.new, eCnt]

/-- Enum value loops coincide for configurations with equal strict_naming. -/
theorem validateEnumValues_cfg_eq (c₁ c₂ : WitValidator)
    (hsn : c₁.strict_naming = c₂.strict_naming) (p en : String) :
    ∀ vs seen, validateEnumValues c₁ p en vs seen = validateEnumValues c₂ p en vs seen := by
  intro vs
  induction vs with
  | nil => intro seen; rfl
  | cons v rest ih => intro seen; simp [validateEnumValues, hsn, ih]


/-- Combined size-bounded statement: for two configurations with equal
strict_naming and depth ceilings at least 5, validate_type and its loops emit
identical issue lists on every type that fits within depth 5. -/
theorem validateType_cfg_eq_aux (c₁ c₂ : WitValidator)
    (hsn : c₁.strict_naming = c₂.strict_naming)
    (h₁ : 5 ≤ c₁.max_type_depth) (h₂ : 5 ≤ c₂.max_type_depth) (p : String) :
    ∀ n : Nat,
      (∀ t d, sizeOf t < n → typeFits t d = true →
        validateType c₁ p t d = validateType c₂ p t d) ∧
      (∀ fs rn seen d, sizeOf fs < n → fieldsFit fs d = true →
        validateRecordFields c₁ p rn fs seen d = validateRecordFields c₂ p rn fs seen d) ∧
      (∀ cs vn seen d, sizeOf cs < n → casesFit cs d = true →
        validateVariantCases c₁ p vn cs seen d = validateVariantCases c₂ p vn cs seen d) ∧
      (∀ ts d, sizeOf ts < n → tupleFits ts d = true →
        validateTupleTypes c₁ p ts d = validateTupleTypes c₂ p ts d) := by
  intro n
  induction n with
  | zero =>
      refine ⟨?_, ?_, ?_, ?_⟩ <;> intros <;> omega
  | succ n ih =>
      obtain ⟨ihT, ihF, ihC, ihU⟩ := ih
      refine ⟨?_, ?_, ?_, ?_⟩
      · intro t d hsz hfit
        obtain ⟨nm, kind, dc⟩ := t
        rw [typeFits.eq_def] at hfit
        simp only [Bool.and_eq_true, decide_eq_true_eq] at hfit
        obtain ⟨hd, hkind⟩ := hfit
        have hn₁ : ¬ d > c₁.max_type_depth := by omega
        have hn₂ : ¬ d > c₂.max_type_depth := by omega
        cases kind with
        | Record fields =>
            have hs : sizeOf fields < n := by
              simp only [WitType.mk.sizeOf_spec, WitTypeKind.Record.sizeOf_spec] at hsz
              omega
            simp only [validateType, hn₁, hn₂, if_false, hsn,
              ihF fields nm [] d hs hkind]
        | Variant cases =>
            have hs : sizeOf cases < n := by
              simp only [WitType.mk.sizeOf_spec, WitTypeKind.Variant.sizeOf_spec] at hsz
              omega
            simp only [validateType, hn₁, hn₂, if_false, hsn,
              ihC cases nm [] d hs hkind]
        | Enum values =>
            simp only [validateType, hn₁, hn₂, if_false, hsn,
              validateEnumValues_cfg_eq c₁ c₂ hsn p nm values []]
        | List element =>
            have hs : sizeOf element < n := by
              simp only [WitType.mk.sizeOf_spec, WitTypeKind.List.sizeOf_spec] at hsz
              omega
            simp only [validateType, hn₁, hn₂, if_false, hsn,
              ihT element (d + 1) hs hkind]
        | Option inner =>
            have hs : sizeOf inner < n := by
              simp only [WitType.mk.sizeOf_spec, WitTypeKind.Option.sizeOf_spec] at hsz
              omega
            simp only [validateType, hn₁, hn₂, if_false, hsn,
              ihT inner (d + 1) hs hkind]
        | Result ok err =>
            cases ok with
            | some okT =>
                cases err with
                | some errT =>
                    simp only [Bool.and_eq_true] at hkind
                    have hs1 : sizeOf okT < n := by
                      simp only [WitType.mk.sizeOf_spec, WitTypeKind.Result.sizeOf_spec,
                        Option.some.sizeOf_spec] at hsz
                      omega
                    have hs2 : sizeOf errT < n := by
                      simp only [WitType.mk.sizeOf_spec, WitTypeKind.Result.sizeOf_spec,
                        Option.some.sizeOf_spec] at hsz
                      omega
                    simp only [validateType, hn₁, hn₂, if_false, hsn,
                      ihT okT (d + 1) hs1 hkind.1, ihT errT (d + 1) hs2 hkind.2]
                | none =>
                    have hs1 : sizeOf okT < n := by
                      simp only [WitType.mk.sizeOf_spec, WitTypeKind.Result.sizeOf_spec,
                        Option.some.sizeOf_spec] at hsz
                      omega
                    simp only [validateType, hn₁, hn₂, if_false, hsn,
                      ihT okT (d + 1) hs1 hkind]
            | none =>
                cases err with
                | some errT =>
                    have hs2 : sizeOf errT < n := by
                      simp only [WitType.mk.sizeOf_spec, WitTypeKind.Result.sizeOf_spec,
                        Option.some.sizeOf_spec] at hsz
                      omega
                    simp only [validateType, hn₁, hn₂, if_false, hsn,
                      ihT errT (d + 1) hs2 hkind]
                | none =>
                    simp only [validateType, hn₁, hn₂, if_false, hsn]
        | Tuple types =>
            have hs : sizeOf types < n := by
              simp only [WitType.mk.sizeOf_spec, WitTypeKind.Tuple.sizeOf_spec] at hsz
              omega
            simp only [validateType, hn₁, hn₂, if_false, hsn,
              ihU types d hs hkind]
        | Primitive s =>
            simp only [validateType, hn₁, hn₂, if_false, hsn]
        | Reference s =>
            simp only [validateType, hn₁, hn₂, if_false, hsn]
      · intro fs rn
        induction fs with
        | nil => intro seen d hsz hfit; simp only [validateRecordFields]
        | cons f rest ihrest =>
            intro seen d hsz hfit
            obtain ⟨fn, ft, fd⟩ := f
            simp only [fieldsFit, Bool.and_eq_true] at hfit
            simp only [List.cons.sizeOf_spec, WitField.mk.sizeOf_spec] at hsz
            have hs1 : sizeOf ft < n := by omega
            have hs2 : sizeOf rest < n + 1 := by omega
            simp only [validateRecordFields, hsn,
              ihT ft (d + 1) hs1 hfit.1,
              ihrest (fn :: seen) d hs2 hfit.2]
      · intro cs vn
        induction cs with
        | nil => intro seen d hsz hfit; simp only [validateVariantCases]
        | cons c rest ihrest =>
            intro seen d hsz hfit
            obtain ⟨cn, pl, cd⟩ := c
            rw [casesFit.eq_def] at hfit
            simp only [Bool.and_eq_true] at hfit
            simp only [List.cons.sizeOf_spec, WitVariantCase.mk.sizeOf_spec] at hsz
            have hs2 : sizeOf rest < n + 1 := by omega
            cases pl with
            | some pt =>
                have hs1 : sizeOf pt < n := by
                  simp only [Option.some.sizeOf_spec] at hsz
                  omega
                simp only [validateVariantCases, hsn,
                  ihT pt (d + 1) hs1 hfit.1,
                  ihrest (cn :: seen) d hs2 hfit.2]
            | none =>
                simp only [validateVariantCases, hsn, ihrest (cn :: seen) d hs2 hfit.2]
      · intro ts
        induction ts with
        | nil => intro d hsz hfit; simp only [validateTupleTypes]
        | cons t rest ihrest =>
            intro d hsz hfit
            simp only [tupleFits, Bool.and_eq_true] at hfit
            simp only [List.cons.sizeOf_spec] at hsz
            have hs1 : sizeOf t < n := by omega
            have hs2 : sizeOf rest < n + 1 := by omega
            simp only [validateTupleTypes,
              ihT t (d + 1) hs1 hfit.1,
              ihrest d hs2 hfit.2]

/-- Types that fit within depth 5 are validated identically by configurations
agreeing on strict_naming whose depth ceilings are at least 5. -/
theorem validateType_cfg_eq (c₁ c₂ : WitValidator)
    (hsn : c₁.strict_naming = c₂.strict_naming)
    (h₁ : 5 ≤ c₁.max_type_depth) (h₂ : 5 ≤ c₂.max_type_depth) (p : String)
    (t : WitType) (d : Nat) (hfit : typeFits t d = true) :
    validateType c₁ p t d = validateType c₂ p t d :=
  (validateType_cfg_eq_aux c₁ c₂ hsn h₁ h₂ p (sizeOf t + 1)).1 t d (Nat.lt_succ_self _) hfit

theorem eCnt_nil : eCnt [] = 0 := rfl

/-- Parameter loops coincide for configurations with equal strict_naming. -/
theorem validateParamList_cfg_eq (c₁ c₂ : WitValidator)
    (hsn : c₁.strict_naming = c₂.strict_naming) (p fn : String) :
    ∀ ps seen, validateParamList c₁ p fn ps seen = validateParamList c₂ p fn ps seen := by
  intro ps
  induction ps with
  | nil => intro seen; rfl
  | cons q rest ih => intro seen; simp [validateParamList, hsn, ih]

/-- With strict naming off, the parameter loop emits at most as many errors as
under any other configuration. -/
theorem validateParamList_cnt_le (c₁ c₂ : WitValidator)
    (h1 : c₁.strict_naming = false) (p fn : String) :
    ∀ ps seen, eCnt (validateParamList c₁ p fn ps seen) ≤
      eCnt (validateParamList c₂ p fn ps seen) := by
  intro ps
  induction ps with
  | nil => intro seen; simp [validateParamList]
  | cons q rest ih =>
      intro seen
      have key := ih (q.name :: seen)
      simp only [validateParamList, h1, Bool.false_and, Bool.false_eq_true, if_false, List.nil_append,
        eCnt_append, eCnt_nil]
      omega

/-- With strict naming off, the enum value loop emits at most as many errors as
under any other configuration. -/
theorem validateEnumValues_cnt_le (c₁ c₂ : WitValidator)
    (h1 : c₁.strict_naming = false) (p en : String) :
    ∀ vs seen, eCnt (validateEnumValues c₁ p en vs seen) ≤
      eCnt (validateEnumValues c₂ p en vs seen) := by
  intro vs
  induction vs with
  | nil => intro seen; simp [validateEnumValues]
  | cons v rest ih =>
      intro seen
      have key := ih (v :: seen)
      simp only [validateEnumValues, h1, Bool.false_and, Bool.false_eq_true, if_false, List.nil_append,
        eCnt_append, eCnt_nil]
      omega

/-- Combined size-bounded statement: with strict naming off in the first
configuration and depth ceilings at least 5 on both, validate_type emits at
most as many errors as under the second configuration on depth-5-fitting
types. -/
theorem validateType_cnt_le_aux (c₁ c₂ : WitValidator)
    (h1 : c₁.strict_naming = false)
    (hm₁ : 5 ≤ c₁.max_type_depth) (hm₂ : 5 ≤ c₂.max_type_depth) (p : String) :
    ∀ n : Nat,
      (∀ t d, sizeOf t < n → typeFits t d = true →
        eCnt (validateType c₁ p t d) ≤ eCnt (validateType c₂ p t d)) ∧
      (∀ fs rn seen d, sizeOf fs < n → fieldsFit fs d = true →
        eCnt (validateRecordFields c₁ p rn fs seen d) ≤
          eCnt (validateRecordFields c₂ p rn fs seen d)) ∧
      (∀ cs vn seen d, sizeOf cs < n → casesFit cs d = true →
        eCnt (validateVariantCases c₁ p vn cs seen d) ≤
          eCnt (validateVariantCases c₂ p vn cs seen d)) ∧
      (∀ ts d, sizeOf ts < n → tupleFits ts d = true →
        eCnt (validateTupleTypes c₁ p ts d) ≤ eCnt (validateTupleTypes c₂ p ts d)) := by
  intro n
  induction n with
  | zero =>
      refine ⟨?_, ?_, ?_, ?_⟩ <;> intros <;> omega
  | succ n ih =>
      obtain ⟨ihT, ihF, ihC, ihU⟩ := ih
      refine ⟨?_, ?_, ?_, ?_⟩
      · intro t d hsz hfit
        obtain ⟨nm, kind, dc⟩ := t
        rw [typeFits.eq_def] at hfit
        simp only [Bool.and_eq_true, decide_eq_true_eq] at hfit
        obtain ⟨hd, hkind⟩ := hfit
        have hn₁ : ¬ d > c₁.max_type_depth := by omega
        have hn₂ : ¬ d > c₂.max_type_depth := by omega
        cases kind with
        | Record fields =>
            have hs : sizeOf fields < n := by
              simp only [WitType.mk.sizeOf_spec, WitTypeKind.Record.sizeOf_spec] at hsz
              omega
            have key := ihF fields nm [] d hs hkind
            simp only [validateType, hn₁, hn₂, if_false, h1, Bool.false_and, Bool.false_eq_true, if_false,
              List.nil_append, eCnt_append, eCnt_nil]
            omega
        | Variant cases =>
            have hs : sizeOf cases < n := by
              simp only [WitType.mk.sizeOf_spec, WitTypeKind.Variant.sizeOf_spec] at hsz
              omega
            have key := ihC cases nm [] d hs hkind
            simp only [validateType, hn₁, hn₂, if_false, h1, Bool.false_and, Bool.false_eq_true, if_false,
              List.nil_append, eCnt_append, eCnt_nil]
            omega
        | Enum values =>
            have key := validateEnumValues_cnt_le c₁ c₂ h1 p nm values []
            simp only [validateType, hn₁, hn₂, if_false, h1, Bool.false_and, Bool.false_eq_true, if_false,
              List.nil_append, eCnt_append, eCnt_nil]
            omega
        | List element =>
            have hs : sizeOf element < n := by
              simp only [WitType.mk.sizeOf_spec, WitTypeKind.List.sizeOf_spec] at hsz
              omega
            have key := ihT element (d + 1) hs hkind
            simp only [validateType, hn₁, hn₂, if_false, h1, Bool.false_and, Bool.false_eq_true, if_false,
              List.nil_append, eCnt_append, eCnt_nil]
            omega
        | Option inner =>
            have hs : sizeOf inner < n := by
              simp only [WitType.mk.sizeOf_spec, WitTypeKind.Option.sizeOf_spec] at hsz
              omega
            have key := ihT inner (d + 1) hs hkind
            simp only [validateType, hn₁, hn₂, if_false, h1, Bool.false_and, Bool.false_eq_true, if_false,
              List.nil_append, eCnt_append, eCnt_nil]
            omega
        | Result ok err =>
            cases ok with
            | some okT =>
                cases err with
                | some errT =>
                    simp only [Bool.and_eq_true] at hkind
                    have hs1 : sizeOf okT < n := by
                      simp only [WitType.mk.sizeOf_spec, WitTypeKind.Result.sizeOf_spec,
                        Option.some.sizeOf_spec] at hsz
                      omega
                    have hs2 : sizeOf errT < n := by
                      simp only [WitType.mk.sizeOf_spec, WitTypeKind.Result.sizeOf_spec,
                        Option.some.sizeOf_spec] at hsz
                      omega
                    have key1 := ihT okT (d + 1) hs1 hkind.1
                    have key2 := ihT errT (d + 1) hs2 hkind.2
                    simp only [validateType, hn₁, hn₂, if_false, h1, Bool.false_and, Bool.false_eq_true, if_false,
                      List.nil_append, eCnt_append, eCnt_nil]
                    omega
                | none =>
                    have hs1 : sizeOf okT < n := by
                      simp only [WitType.mk.sizeOf_spec, WitTypeKind.Result.sizeOf_spec,
                        Option.some.sizeOf_spec] at hsz
                      omega
                    have key := ihT okT (d + 1) hs1 hkind
                    simp only [validateType, hn₁, hn₂, if_false, h1, Bool.false_and, Bool.false_eq_true, if_false,
                      List.nil_append, eCnt_append, eCnt_nil]
                    omega
            | none =>
                cases err with
                | some errT =>
                    have hs2 : sizeOf errT < n := by
                      simp only [WitType.mk.sizeOf_spec, WitTypeKind.Result.sizeOf_spec,
                        Option.some.sizeOf_spec] at hsz
                      omega
                    have key := ihT errT (d + 1) hs2 hkind
                    simp only [validateType, hn₁, hn₂, if_false, h1, Bool.false_and, Bool.false_eq_true, if_false,
                      List.nil_append, eCnt_append, eCnt_nil]
                    omega
                | none =>
                    simp only [validateType, hn₁, hn₂, if_false, h1, Bool.false_and, Bool.false_eq_true, if_false,
                      List.nil_append, eCnt_append, eCnt_nil]
                    omega
        | Tuple types =>
            have hs : sizeOf types < n := by
              simp only [WitType.mk.sizeOf_spec, WitTypeKind.Tuple.sizeOf_spec] at hsz
              omega
            have key := ihU types d hs hkind
            simp only [validateType, hn₁, hn₂, if_false, h1, Bool.false_and, Bool.false_eq_true, if_false,
              List.nil_append, eCnt_append, eCnt_nil]
            omega
        | Primitive s =>
            simp only [validateType, hn₁, hn₂, if_false, h1, Bool.false_and, Bool.false_eq_true, if_false,
              List.nil_append, eCnt_append, eCnt_nil]
            omega
        | Reference s =>
            simp only [validateType, hn₁, hn₂, if_false, h1, Bool.false_and, Bool.false_eq_true, if_false,
              List.nil_append, eCnt_append, eCnt_nil]
            omega
      · intro fs rn
        induction fs with
        | nil => intro seen d hsz hfit; simp [validateRecordFields]
        | cons f rest ihrest =>
            intro seen d hsz hfit
            obtain ⟨fn, ft, fd⟩ := f
            simp only [fieldsFit, Bool.and_eq_true] at hfit
            simp only [List.cons.sizeOf_spec, WitField.mk.sizeOf_spec] at hsz
            have key1 := ihT ft (d + 1) (by omega) hfit.1
            have key2 := ihrest (fn :: seen) d (by omega) hfit.2
            simp only [validateRecordFields, h1, Bool.false_and, Bool.false_eq_true, if_false,
              List.nil_append, eCnt_append, eCnt_nil]
            omega
      · intro cs vn
        induction cs with
        | nil => intro seen d hsz hfit; simp [validateVariantCases]
        | cons c rest ihrest =>
            intro seen d hsz hfit
            obtain ⟨cn, pl, cd⟩ := c
            rw [casesFit.eq_def] at hfit
            simp only [Bool.and_eq_true] at hfit
            simp only [List.cons.sizeOf_spec, WitVariantCase.mk.sizeOf_spec] at hsz
            have key2 := ihrest (cn :: seen) d (by omega) hfit.2
            cases pl with
            | some pt =>
                have key1 := ihT pt (d + 1)
                  (by simp only [Option.some.sizeOf_spec] at hsz; omega) hfit.1
                simp only [validateVariantCases, h1, Bool.false_and, Bool.false_eq_true, if_false,
                  List.nil_append, eCnt_append, eCnt_nil]
                omega
            | none =>
                simp only [validateVariantCases, h1, Bool.false_and, Bool.false_eq_true, if_false,
                  List.nil_append, eCnt_append, eCnt_nil]
                omega
      · intro ts
        induction ts with
        | nil => intro d hsz hfit; simp [validateTupleTypes]
        | cons t rest ihrest =>
            intro d hsz hfit
            simp only [tupleFits, Bool.and_eq_true] at hfit
            simp only [List.cons.sizeOf_spec] at hsz
            have key1 := ihT t (d + 1) (by omega) hfit.1
            have key2 := ihrest d (by omega) hfit.2
            simp only [validateTupleTypes, eCnt_append]
            omega

/-- Wrapper: error-count monotonicity of validate_type between a
non-strict-naming configuration and any other, on depth-5-fitting types. -/
theorem validateType_cnt_le (c₁ c₂ : WitValidator)
    (h1 : c₁.strict_naming = false)
    (hm₁ : 5 ≤ c₁.max_type_depth) (hm₂ : 5 ≤ c₂.max_type_depth) (p : String)
    (t : WitType) (d : Nat) (hfit : typeFits t d = true) :
    eCnt (validateType c₁ p t d) ≤ eCnt (validateType c₂ p t d) :=
  (validateType_cnt_le_aux c₁ c₂ h1 hm₁ hm₂ p (sizeOf t + 1)).1 t d (Nat.lt_succ_self _) hfit

/-- A guarded singleton of a non-error issue contributes no error count. -/
theorem eCnt_guard_zero (P : Prop) [Decidable P] (i : ValidationIssue)
    (h : issueIsError i = false) : eCnt (if P then [i] else []) = 0 := by
  split <;> simp [eCnt, List.filter, h]

theorem eCnt_flatten_map_eq {α : Type} (f g : α → List ValidationIssue) (l : List α)
    (h : ∀ a ∈ l, eCnt (f a) = eCnt (g a)) :
    eCnt ((l.map f).flatten) = eCnt ((l.map g).flatten) := by
  induction l with
  | nil => rfl
  | cons a rest ih =>
      simp only [List.map_cons, List.flatten_cons, eCnt_append]
      rw [h a (by simp), ih (fun b hb => h b (by simp [hb]))]

theorem eCnt_flatten_map_le {α : Type} (f g : α → List ValidationIssue) (l : List α)
    (h : ∀ a ∈ l, eCnt (f a) ≤ eCnt (g a)) :
    eCnt ((l.map f).flatten) ≤ eCnt ((l.map g).flatten) := by
  induction l with
  | nil => exact Nat.le_refl _
  | cons a rest ih =>
      simp only [List.map_cons, List.flatten_cons, eCnt_append]
      have h1 := h a (by simp)
      have h2 := ih (fun b hb => h b (by simp [hb]))
      omega

/-- Every emission list whose members are all non-errors counts zero. -/
theorem eCnt_eq_zero (l : List ValidationIssue) (h : ∀ i ∈ l, issueIsError i = false) :
    eCnt l = 0 := by
  simp only [eCnt, List.length_eq_zero]
  exact List.filter_eq_nil_iff.mpr (fun i hi => by simp [h i hi])

/-- Platform constraint advisories are all Info. -/
theorem eCnt_platform_zero (doc : WitDocument) :
    eCnt (validatePlatformConstraints doc) = 0 := by
  apply eCnt_eq_zero
  intro i hi
  simp only [validatePlatformConstraints, List.mem_flatten, List.mem_map] at hi
  obtain ⟨_, ⟨iface, hiface, rfl⟩, hin⟩ := hi
  simp only [List.mem_flatten, List.mem_map] at hin
  obtain ⟨_, ⟨t, ht, rfl⟩, hin2⟩ := hin
  rcases hk : t.kind <;> simp only [hk] at hin2 <;> simp at hin2
  · subst hin2
    rfl

/-- Deep-nesting advisories are all Warnings. -/
theorem eCnt_performance_zero (doc : WitDocument) :
    eCnt (validatePerformanceCharacteristics doc) = 0 := by
  apply eCnt_eq_zero
  intro i hi
  simp only [validatePerformanceCharacteristics, List.mem_flatten, List.mem_map] at hi
  obtain ⟨_, ⟨iface, hiface, rfl⟩, hin⟩ := hi
  simp only [List.mem_flatten, List.mem_map] at hin
  obtain ⟨_, ⟨t, ht, rfl⟩, hin2⟩ := hin
  split at hin2
  · simp at hin2
    subst hin2
    rfl
  · simp at hin2

/-- Package checks coincide for configurations with equal strict_naming. -/
theorem validatePackageIssues_cfg_eq (c₁ c₂ : WitValidator)
    (hsn : c₁.strict_naming = c₂.strict_naming) (doc : WitDocument) :
    validatePackageIssues c₁ doc = validatePackageIssues c₂ doc := by
  simp [validatePackageIssues, hsn]

/-- With strict naming off, package checks emit at most as many errors. -/
theorem validatePackageIssues_cnt_le (c₁ c₂ : WitValidator)
    (h1 : c₁.strict_naming = false) (doc : WitDocument) :
    eCnt (validatePackageIssues c₁ doc) ≤ eCnt (validatePackageIssues c₂ doc) := by
  simp only [validatePackageIssues, h1, Bool.false_and, Bool.false_eq_true, if_false,
    List.nil_append, eCnt_append, eCnt_nil]
  omega

/-- World checks coincide for configurations with equal strict_naming. -/
theorem validateWorldIssues_cfg_eq (c₁ c₂ : WitValidator)
    (hsn : c₁.strict_naming = c₂.strict_naming) (p : String) (w : WitWorld) :
    validateWorldIssues c₁ p w = validateWorldIssues c₂ p w := by
  simp [validateWorldIssues, hsn]

/-- With strict naming off, world checks emit at most as many errors. -/
theorem validateWorldIssues_cnt_le (c₁ c₂ : WitValidator)
    (h1 : c₁.strict_naming = false) (p : String) (w : WitWorld) :
    eCnt (validateWorldIssues c₁ p w) ≤ eCnt (validateWorldIssues c₂ p w) := by
  simp only [validateWorldIssues, h1, Bool.false_and, Bool.false_eq_true, if_false,
    List.nil_append, eCnt_append, eCnt_nil]
  omega

/-- Function checks have equal error counts for configurations with equal
strict_naming: the parameter-count threshold only affects a Warning. -/
theorem eCnt_warning_guard (P : Prop) [Decidable P] (code msg p ctx : String) :
    eCnt (if P then
      [((ValidationIssue.warning code msg).with_location p none none).with_context ctx]
    else []) = 0 := by
  split <;> rfl

theorem validateFunctionIssues_cnt_eq (c₁ c₂ : WitValidator)
    (hsn : c₁.strict_naming = c₂.strict_naming) (p : String) (f : WitFunction) :
    eCnt (validateFunctionIssues c₁ p f) = eCnt (validateFunctionIssues c₂ p f) := by
  simp only [validateFunctionIssues, hsn, eCnt_append,
    validateParamList_cfg_eq c₁ c₂ hsn p f.name f.parameters [], eCnt_warning_guard]

/-- With strict naming off, function checks emit at most as many errors. -/
theorem validateFunctionIssues_cnt_le (c₁ c₂ : WitValidator)
    (h1 : c₁.strict_naming = false) (p : String) (f : WitFunction) :
    eCnt (validateFunctionIssues c₁ p f) ≤ eCnt (validateFunctionIssues c₂ p f) := by
  have key := validateParamList_cnt_le c₁ c₂ h1 p f.name f.parameters []
  simp only [validateFunctionIssues, h1, Bool.false_and, Bool.false_eq_true, if_false,
    List.nil_append, eCnt_append, eCnt_nil, eCnt_warning_guard]
  omega

/-- Interface checks have equal error counts for configurations with equal
strict_naming and depth ceilings at least 5, on interfaces whose types all fit
within depth 5. -/
theorem validateInterfaceIssues_cnt_eq (c₁ c₂ : WitValidator)
    (hsn : c₁.strict_naming = c₂.strict_naming)
    (hm₁ : 5 ≤ c₁.max_type_depth) (hm₂ : 5 ≤ c₂.max_type_depth)
    (p : String) (iface : WitInterface)
    (hfit : iface.types.all (fun t => typeFits t 0) = true) :
    eCnt (validateInterfaceIssues c₁ p iface) = eCnt (validateInterfaceIssues c₂ p iface) := by
  have hfns : eCnt ((iface.functions.map (validateFunctionIssues c₁ p)).flatten) =
      eCnt ((iface.functions.map (validateFunctionIssues c₂ p)).flatten) :=
    eCnt_flatten_map_eq _ _ _ (fun f _ => validateFunctionIssues_cnt_eq c₁ c₂ hsn p f)
  have htys : (iface.types.map (fun t => validateType c₁ p t 0)) =
      (iface.types.map (fun t => validateType c₂ p t 0)) := by
    apply List.map_congr_left
    intro t ht
    exact validateType_cfg_eq c₁ c₂ hsn hm₁ hm₂ p t 0 (by
      have := List.all_eq_true.mp hfit t ht
      simpa using this)
  simp only [validateInterfaceIssues, hsn, eCnt_append, hfns, htys]

/-- With strict naming off and both ceilings at least 5, interface checks emit
at most as many errors, on interfaces whose types all fit within depth 5. -/
theorem validateInterfaceIssues_cnt_le (c₁ c₂ : WitValidator)
    (h1 : c₁.strict_naming = false)
    (hm₁ : 5 ≤ c₁.max_type_depth) (hm₂ : 5 ≤ c₂.max_type_depth)
    (p : String) (iface : WitInterface)
    (hfit : iface.types.all (fun t => typeFits t 0) = true) :
    eCnt (validateInterfaceIssues c₁ p iface) ≤ eCnt (validateInterfaceIssues c₂ p iface) := by
  have hfns : eCnt ((iface.functions.map (validateFunctionIssues c₁ p)).flatten) ≤
      eCnt ((iface.functions.map (validateFunctionIssues c₂ p)).flatten) :=
    eCnt_flatten_map_le _ _ _ (fun f _ => validateFunctionIssues_cnt_le c₁ c₂ h1 p f)
  have htys : eCnt ((iface.types.map (fun t => validateType c₁ p t 0)).flatten) ≤
      eCnt ((iface.types.map (fun t => validateType c₂ p t 0)).flatten) := by
    apply eCnt_flatten_map_le
    intro t ht
    exact validateType_cnt_le c₁ c₂ h1 hm₁ hm₂ p t 0 (by
      have := List.all_eq_true.mp hfit t ht
      simpa using this)
  simp only [validateInterfaceIssues, h1, Bool.false_and, Bool.false_eq_true, if_false,
    List.nil_append, eCnt_append, eCnt_nil]
  omega

/-- C3 amended: on documents whose types all fit within the strict depth
ceiling of 5 (so no preset emits TYPE_TOO_DEEP and no early return hides
nested issues), the lenient and default presets report exactly the same number
of errors and the strict preset reports at least as many as the default. -/
theorem preset_monotonicity_depth_bounded (doc : WitDocument) (h : fitsDoc doc = true) :
    (WitValidator.lenient.validate doc).errors.length =
      (WitValidator.new.validate doc).errors.length ∧
    (WitValidator.new.validate doc).errors.length ≤
      (WitValidator.strict.validate doc).errors.length := by
  have hdoc : ∀ iface ∈ doc.interfaces, iface.types.all (fun t => typeFits t 0) = true := by
    intro iface hiface
    have := List.all_eq_true.mp h iface hiface
    simpa using this
  have hlen_sn : WitValidator.lenient.strict_naming = WitValidator.new.strict_naming := rfl
  have hnew_sn : WitValidator.new.strict_naming = false := rfl
  have hm_len : 5 ≤ WitValidator.lenient.max_type_depth := by decide
  have hm_new : 5 ≤ WitValidator.new.max_type_depth := by decide
  have hm_str : 5 ≤ WitValidator.strict.max_type_depth := by decide
  constructor
  · rw [WitValidator.validate_errors_length, WitValidator.validate_errors_length]
    simp only [WitValidator.validateIssues, eCnt_append]
    have hpkg := validatePackageIssues_cfg_eq WitValidator.lenient WitValidator.new hlen_sn doc
    have hif : eCnt ((doc.interfaces.map (validateInterfaceIssues WitValidator.lenient doc.path)).flatten) =
        eCnt ((doc.interfaces.map (validateInterfaceIssues WitValidator.new doc.path)).flatten) :=
      eCnt_flatten_map_eq _ _ _ (fun iface hiface =>
        validateInterfaceIssues_cnt_eq WitValidator.lenient WitValidator.new hlen_sn
          hm_len hm_new doc.path iface (hdoc iface hiface))
    have hw : (doc.worlds.map (validateWorldIssues WitValidator.lenient doc.path)) =
        (doc.worlds.map (validateWorldIssues WitValidator.new doc.path)) :=
      List.map_congr_left (fun w _ =>
        validateWorldIssues_cfg_eq WitValidator.lenient WitValidator.new hlen_sn doc.path w)
    have hplat : eCnt (validatePlatformConstraints doc) = 0 := eCnt_platform_zero doc
    have hperf : eCnt (validatePerformanceCharacteristics doc) = 0 := eCnt_performance_zero doc
    have hplatlen : (if WitValidator.lenient.platform_checks then
        validatePlatformConstraints doc else []) = [] := rfl
    have hperflen : (if WitValidator.lenient.performance_checks then
        validatePerformanceCharacteristics doc else []) = [] := rfl
    have hplatnew : (if WitValidator.new.platform_checks then
        validatePlatformConstraints doc else []) = validatePlatformConstraints doc := rfl
    have hperfnew : (if WitValidator.new.performance_checks then
        validatePerformanceCharacteristics doc else []) = validatePerformanceCharacteristics doc := rfl
    rw [hpkg, hif, hw, hplatlen, hperflen, hplatnew, hperfnew]
    simp only [eCnt_nil, hplat, hperf]
  · rw [WitValidator.validate_errors_length, WitValidator.validate_errors_length]
    simp only [WitValidator.validateIssues, eCnt_append]
    have hpkg := validatePackageIssues_cnt_le WitValidator.new WitValidator.strict hnew_sn doc
    have hif : eCnt ((doc.interfaces.map (validateInterfaceIssues WitValidator.new doc.path)).flatten) ≤
        eCnt ((doc.interfaces.map (validateInterfaceIssues WitValidator.strict doc.path)).flatten) :=
      eCnt_flatten_map_le _ _ _ (fun iface hiface =>
        validateInterfaceIssues_cnt_le WitValidator.new WitValidator.strict hnew_sn
          hm_new hm_str doc.path iface (hdoc iface hiface))
    have hw : eCnt ((doc.worlds.map (validateWorldIssues WitValidator.new doc.path)).flatten) ≤
        eCnt ((doc.worlds.map (validateWorldIssues WitValidator.strict doc.path)).flatten) :=
      eCnt_flatten_map_le _ _ _ (fun w _ =>
        validateWorldIssues_cnt_le WitValidator.new WitValidator.strict hnew_sn doc.path w)
    have hplatnew : (if WitValidator.new.platform_checks then
        validatePlatformConstraints doc else []) = validatePlatformConstraints doc := rfl
    have hplatstr : (if WitValidator.strict.platform_checks then
        validatePlatformConstraints doc else []) = validatePlatformConstraints doc := rfl
    have hperfnew : (if WitValidator.new.performance_checks then
        validatePerformanceCharacteristics doc else []) = validatePerformanceCharacteristics doc := rfl
    have hperfstr : (if WitValidator.strict.performance_checks then
        validatePerformanceCharacteristics doc else []) = validatePerformanceCharacteristics doc := rfl
    rw [hplatnew, hplatstr, hperfnew, hperfstr]
    omega

/-- Witness for preset_monotonicity_depth_bounded at a concrete fitting
document. -/
theorem preset_monotonicity_depth_bounded_witness :
    fitsDoc (mkTestDoc [] []) = true ∧
    ((WitValidator.lenient.validate (mkTestDoc [] [])).errors.length =
        (WitValidator.new.validate (mkTestDoc [] [])).errors.length ∧
      (WitValidator.new.validate (mkTestDoc [] [])).errors.length ≤
        (WitValidator.strict.validate (mkTestDoc [] [])).errors.length) :=
  ⟨by rfl, preset_monotonicity_depth_bounded (mkTestDoc [] []) (by rfl)⟩

/-! ## Error taxonomy (error.rs WitError) -/

/-- Main error type (error.rs WitError). -/
inductive WitError where
  | FileRead (path message : String)
  | DirectoryRead (path message : String)
  | ParseError (path message : String) (line column : Option Nat)
  | ValidationError (path message : String) (details : List String)
  | TypeError (interface type_name message : String)
  | DependencyError (message : String) (missing_interfaces circular_dependencies : List String)
  | PlatformConstraintError (platform constraint message : String)
  | MemoryLimitExceeded (current_mb limit_mb : Nat)
  | UnsupportedFeature (feature path : String)
  | ConfigError (message : String)
  | BatchProcessingError (failed_count total_count : Nat) (individual_errors : List WitError)
  | JsonError (message : String)
  | Internal (message : String)

/-- error.rs is_parse_error. -/
def WitError.is_parse_error : WitError → Bool
  | .ParseError _ _ _ _ => true
  | _ => false

/-- error.rs is_file_error. -/
def WitError.is_file_error : WitError → Bool
  | .FileRead _ _ => true
  | .DirectoryRead _ _ => true
  | _ => false

/-- Discriminator for the MemoryLimitExceeded kind (used to state what kind an
error is not; error.rs itself exposes no such helper). -/
def WitError.isMemoryLimitExceeded : WitError → Bool
  | .MemoryLimitExceeded _ _ => true
  | _ => false

/-! ## Parser (parser.rs WitParser) -/

/-- Parser configuration (parser.rs WitParser). -/
structure WitParser where
  max_file_size : Nat
  max_memory_usage : Nat
  include_raw_content : Bool
  resolve_dependencies : Bool
deriving Repr, DecidableEq

/-- WitParser::new. -/
def WitParser.new : WitParser :=
  { max_file_size := 10 * 1024 * 1024, max_memory_usage := 64 * 1024 * 1024,
    include_raw_content := true, resolve_dependencies := true }

/-- WitParser::memory_constrained. -/
def WitParser.memory_constrained : WitParser :=
  { max_file_size := 1024 * 1024, max_memory_usage := 4 * 1024 * 1024,
    include_raw_content := false, resolve_dependencies := false }

/-- WitParser::high_performance. -/
def WitParser.high_performance : WitParser :=
  { max_file_size := 100 * 1024 * 1024, max_memory_usage := 512 * 1024 * 1024,
    include_raw_content := true, resolve_dependencies := true }

/-- Builder with_max_file_size. -/
def WitParser.with_max_file_size (p : WitParser) (max_size : Nat) : WitParser :=
  { p with max_file_size := max_size }

/-- Builder with_max_memory_usage. -/
def WitParser.with_max_memory_usage (p : WitParser) (max_memory : Nat) : WitParser :=
  { p with max_memory_usage := max_memory }

/-- The file system view a single parse_file call observes: whether the path
exists, the metadata size, and the text content.  Metadata and read failures
beyond non-existence are not modelled. -/
structure WitFile where
  path : String
  file_exists : Bool
  size : Nat
  content : String

/-- What the external grammar parser (wit_parser::Resolve::push_str plus the
extract_* AST walk, an external collaborator) yields on success: the package
name and version and the projected interfaces and worlds of the package. -/
structure ParsedPackage where
  package_name : String
  package_version : Option String
  interfaces : List WitInterface
  worlds : List WitWorld

/-- parser.rs WitParser::parse_file: existence check, size ceiling check
(before the external parser is consulted), then delegation to the external
parser, then projection into the document model.  pushStr stands for the
external grammar parser; the duration fields are not modelled (0). -/
def WitParser.parseFile (parser : WitParser) (file : WitFile)
    (pushStr : String → Except String ParsedPackage) : Except WitError WitDocument :=
  if file.file_exists = false then
    .error (.FileRead file.path "File not found")
  else
    let file_size := file.size
    if file_size > parser.max_file_size then
      .error (.ConfigError
        ("File size " ++ toString (file_size / (1024 * 1024)) ++
          "MB exceeds maximum allowed size " ++
          toString (parser.max_file_size / (1024 * 1024)) ++ "MB"))
    else
      match pushStr file.content with
      | .error e => .error (.ParseError file.path e none none)
      | .ok pkg =>
          .ok { path := file.path
                package_name := pkg.package_name
                package_version := pkg.package_version
                interfaces := pkg.interfaces
                worlds := pkg.worlds
                imports := []
                exports := []
                raw_content := if parser.include_raw_content then file.content else ""
                file_size := file_size
                parse_duration_ms := 0 }

/-- parser.rs WitParser::parse_directory, applied to the per-file parse
outcomes of the discovered .wit files: files that fail to parse are skipped
with only a logged warning — they are not recorded anywhere in the result. -/
def parseDirectoryOutcomes (results : List (Except WitError WitDocument)) :
    List WitDocument :=
  results.filterMap (fun r =>
    match r with
    | .ok d => some d
    | .error _ => none)

/-! ## Batch reports and orchestration (types.rs / batch.rs) -/

/-- Batch processing statistics (types.rs BatchStats). -/
structure BatchStats where
  total_files : Nat
  successful_files : Nat
  failed_files : Nat
  total_interfaces : Nat
  total_worlds : Nat
  total_size_bytes : Nat

/-- Batch validation report (types.rs BatchValidationReport). -/
structure BatchValidationReport where
  documents : List WitDocument
  validation : ValidationReport
  errors : List WitError
  success : Bool
  stats : BatchStats

/-- types.rs BatchValidationReport::new: success mirrors validation.is_valid(),
and the per-file counters are derived from it wholesale — all documents are
counted successful when validation passed and all failed otherwise. -/
def BatchValidationReport.new (documents : List WitDocument)
    (validation : ValidationReport) : BatchValidationReport :=
  let success := validation.isValid
  { documents := documents
    validation := validation
    errors := []
    success := success
    stats :=
      { total_files := documents.length
        successful_files := if success then documents.length else 0
        failed_files := if success then 0 else documents.length
        total_interfaces := (documents.map WitDocument.interface_count).sum
        total_worlds := (documents.map WitDocument.world_count).sum
        total_size_bytes := (documents.map (fun d => d.file_size)).sum } }

/-- types.rs BatchValidationReport::add_error. -/
def BatchValidationReport.add_error (r : BatchValidationReport) (e : WitError) :
    BatchValidationReport :=
  { r with
    success := false
    errors := r.errors ++ [e]
    stats :=
      { r.stats with
        failed_files := r.stats.failed_files + 1
        successful_files :=
          if r.stats.successful_files > 0 then r.stats.successful_files - 1
          else r.stats.successful_files } }

/-- batch.rs batch_validate_directory_with_config, applied to the outcome of
the directory walk: either the walk itself failed (DirectoryRead) or it yielded
per-file parse outcomes.  The validator::validate_all Err branch is
unreachable (validate_all always returns Ok); timing updates are not
modelled. -/
def batchValidateDirectoryWithConfig (validator : WitValidator)
    (dir : Except WitError (List (Except WitError WitDocument))) :
    BatchValidationReport :=
  match dir with
  | .error e => (BatchValidationReport.new [] ValidationReport.new).add_error e
  | .ok results =>
      let documents := parseDirectoryOutcomes results
      let validation_report := validator.validateAll documents
      BatchValidationReport.new documents validation_report

/-- A syntactically trivial document that parses and validates cleanly (only
warnings). -/
def okDoc (p : String) : WitDocument :=
  { path := p, package_name := "test:pkg", package_version := some "1.0.0",
    interfaces := [], worlds := [], imports := [], exports := [], raw_content := "",
    file_size := 0, parse_duration_ms := 0 }

/-- C1 (failing-input evaluation): for a directory of 6 files where 5 parse and
validate cleanly and 1 fails to parse, the batch report records total_files =
5, successful_files = 5, failed_files = 0, success = true and an empty errors
list — the parse failure is dropped by parse_directory and never reaches the
report, contrary to the claimed 6/5/1/false with the failure recorded. -/
theorem batch_partial_failure_divergence :
    (batchValidateDirectoryWithConfig WitValidator.new
      (.ok [.ok (okDoc "a.wit"), .ok (okDoc "b.wit"), .ok (okDoc "c.wit"),
            .ok (okDoc "d.wit"), .ok (okDoc "e.wit"),
            .error (.ParseError "f.wit" "expected token" none none)])).stats.total_files = 5 ∧
    (batchValidateDirectoryWithConfig WitValidator.new
      (.ok [.ok (okDoc "a.wit"), .ok (okDoc "b.wit"), .ok (okDoc "c.wit"),
            .ok (okDoc "d.wit"), .ok (okDoc "e.wit"),
            .error (.ParseError "f.wit" "expected token" none none)])).stats.successful_files = 5 ∧
    (batchValidateDirectoryWithConfig WitValidator.new
      (.ok [.ok (okDoc "a.wit"), .ok (okDoc "b.wit"), .ok (okDoc "c.wit"),
            .ok (okDoc "d.wit"), .ok (okDoc "e.wit"),
            .error (.ParseError "f.wit" "expected token" none none)])).stats.failed_files = 0 ∧
    (batchValidateDirectoryWithConfig WitValidator.new
      (.ok [.ok (okDoc "a.wit"), .ok (okDoc "b.wit"), .ok (okDoc "c.wit"),
            .ok (okDoc "d.wit"), .ok (okDoc "e.wit"),
            .error (.ParseError "f.wit" "expected token" none none)])).success = true ∧
    (batchValidateDirectoryWithConfig WitValidator.new
      (.ok [.ok (okDoc "a.wit"), .ok (okDoc "b.wit"), .ok (okDoc "c.wit"),
            .ok (okDoc "d.wit"), .ok (okDoc "e.wit"),
            .error (.ParseError "f.wit" "expected token" none none)])).errors = [] :=
  ⟨rfl, rfl, rfl, rfl, rfl⟩

/-- C6 counterexample: a file one byte over the default 10MB ceiling is
rejected with ConfigError, not with the MemoryLimitExceeded kind the claim
names (and not FileRead or ParseError either). -/
theorem oversized_file_error_kind_cex :
    (WitParser.new.parseFile
        { path := "big.wit", file_exists := true, size := 10 * 1024 * 1024 + 1,
          content := "" }
        (fun _ => .error "never consulted") =
      .error (.ConfigError "File size 10MB exceeds maximum allowed size 10MB")) ∧
    WitError.isMemoryLimitExceeded
      (.ConfigError "File size 10MB exceeds maximum allowed size 10MB") = false :=
  ⟨rfl, rfl⟩

/-- C6 amended: every file whose size exceeds the configured max_file_size is
rejected before the external grammar parser is ever invoked — the result is
the same for every possible parser behaviour — and the failure is the
ConfigError kind carrying the size message, not FileRead, ParseError or
MemoryLimitExceeded. -/
theorem oversized_file_rejected_before_parse (parser : WitParser) (file : WitFile)
    (pushStr : String → Except String ParsedPackage)
    (hex : file.file_exists = true) (hsz : file.size > parser.max_file_size) :
    parser.parseFile file pushStr =
      .error (.ConfigError
        ("File size " ++ toString (file.size / (1024 * 1024)) ++
          "MB exceeds maximum allowed size " ++
          toString (parser.max_file_size / (1024 * 1024)) ++ "MB")) := by
  simp [WitParser.parseFile, hex, hsz]

/-- Witness for oversized_file_rejected_before_parse at a concrete oversized
file and two different parser oracles. -/
theorem oversized_file_rejected_before_parse_witness :
    ({ path := "w.wit", file_exists := true, size := 2000000,
       content := "" } : WitFile).file_exists = true ∧
    ({ path := "w.wit", file_exists := true, size := 2000000,
       content := "" } : WitFile).size > WitParser.memory_constrained.max_file_size ∧
    WitParser.memory_constrained.parseFile
        { path := "w.wit", file_exists := true, size := 2000000, content := "" }
        (fun _ => .ok { package_name := "x:y", package_version := none,
                        interfaces := [], worlds := [] }) =
      .error (.ConfigError "File size 1MB exceeds maximum allowed size 1MB") :=
  ⟨rfl, by decide,
    oversized_file_rejected_before_parse WitParser.memory_constrained
      { path := "w.wit", file_exists := true, size := 2000000, content := "" }
      (fun _ => .ok { package_name := "x:y", package_version := none,
                      interfaces := [], worlds := [] })
      rfl (by decide)⟩

/-! ## Type dependency graph (types.rs) and builder / cycle detector (lib.rs) -/

/-- Dependency kinds (types.rs DependencyType). -/
inductive DependencyType where
  | FieldType
  | VariantPayload
  | ListElement
  | OptionInner
  | ResultType
  | TupleElement
  | FunctionParameter
  | FunctionReturn
deriving Repr, DecidableEq

/-- Dependency edge (types.rs DependencyEdge); the Rust fields from/to are
Lean keywords or too generic, rendered src/tgt. -/
structure DependencyEdge where
  src : String
  tgt : String
  dependency_type : DependencyType
deriving Repr, DecidableEq

/-- Severity levels for circular dependencies (types.rs). -/
inductive CircularDependencySeverity where
  | Error
  | Warning
  | Info
deriving Repr, DecidableEq

/-- Circular dependency information (types.rs CircularDependency). -/
structure CircularDependency where
  cycle : List String
  severity : CircularDependencySeverity
deriving Repr, DecidableEq

/-- Context where a type is used (types.rs UsageContext). -/
inductive UsageContext where
  | RecordField (record_name field_name : String)
  | VariantPayload (variant_name case_name : String)
  | FunctionParameter (interface_name function_name parameter_name : String)
  | FunctionReturn (interface_name function_name : String)
  | TypeComposition (parent_type : String)
deriving Repr, DecidableEq

/-- Type usage pattern (types.rs TypeUsagePattern); carried by the graph but
never populated by extract_type_dependencies. -/
structure TypeUsagePattern where
  type_name : String
  usage_count : Nat
  usage_contexts : List UsageContext
  is_exported : Bool
  is_internal_only : Bool
deriving Repr, DecidableEq

/-- Type dependency graph (types.rs TypeDependencyGraph). -/
structure TypeDependencyGraph where
  nodes : List String
  edges : List DependencyEdge
  circular_dependencies : List CircularDependency
  usage_patterns : List TypeUsagePattern
deriving Repr, DecidableEq

/-- TypeDependencyGraph::new. -/
def TypeDependencyGraph.new : TypeDependencyGraph :=
  { nodes := [], edges := [], circular_dependencies := [], usage_patterns := [] }

/-- TypeDependencyGraph::add_dependency: register both endpoints as nodes if
new, then push the edge. -/
def TypeDependencyGraph.add_dependency (g : TypeDependencyGraph)
    (src tgt : String) (dependency_type : DependencyType) : TypeDependencyGraph :=
  let nodes1 := if src ∈ g.nodes then g.nodes else g.nodes ++ [src]
  let nodes2 := if tgt ∈ nodes1 then nodes1 else nodes1 ++ [tgt]
  { g with
    nodes := nodes2
    edges := g.edges ++ [{ src := src, tgt := tgt, dependency_type := dependency_type }] }

/-- TypeDependencyGraph::get_dependencies: outgoing edges of a node, in
insertion order. -/
def TypeDependencyGraph.get_dependencies (g : TypeDependencyGraph) (type_name : String) :
    List DependencyEdge :=
  g.edges.filter (fun e => e.src = type_name)

mutual

/-- lib.rs add_type_dependencies_recursive: unwrap container kinds until a
Reference is found and add one edge per reference; primitives and enums stop
with no edge. -/
def addTypeDependenciesRecursive (fromName : String) :
    WitType → TypeDependencyGraph → DependencyType → TypeDependencyGraph
  | .mk _ kind _, graph, dependency_type =>
      match kind with
      | .Primitive _ => graph
      | .Reference type_name => graph.add_dependency fromName type_name dependency_type
      | .List inner => addTypeDependenciesRecursive fromName inner graph .ListElement
      | .Option inner => addTypeDependenciesRecursive fromName inner graph .OptionInner
      | .Result (some okT) (some errT) =>
          addTypeDependenciesRecursive fromName errT
            (addTypeDependenciesRecursive fromName okT graph .ResultType) .ResultType
      | .Result (some okT) none =>
          addTypeDependenciesRecursive fromName okT graph .ResultType
      | .Result none (some errT) =>
          addTypeDependenciesRecursive fromName errT graph .ResultType
      | .Result none none => graph
      | .Tuple types => addTupleDependencies fromName types graph
      | .Record fields => addFieldDependencies fromName fields graph
      | .Variant cases => addCaseDependencies fromName cases graph
      | .Enum _ => graph
  termination_by t _ _ => sizeOf t

/-- Tuple-element loop of add_type_dependencies_recursive. -/
def addTupleDependencies (fromName : String) :
    List WitType → TypeDependencyGraph → TypeDependencyGraph
  | [], graph => graph
  | t :: rest, graph =>
      addTupleDependencies fromName rest
        (addTypeDependenciesRecursive fromName t graph .TupleElement)
  termination_by ts _ => sizeOf ts

/-- Record-field loop of add_type_dependencies_recursive. -/
def addFieldDependencies (fromName : String) :
    List WitField → TypeDependencyGraph → TypeDependencyGraph
  | [], graph => graph
  | .mk _ ftype _ :: rest, graph =>
      addFieldDependencies fromName rest
        (addTypeDependenciesRecursive fromName ftype graph .FieldType)
  termination_by fs _ => sizeOf fs

/-- Variant-payload loop of add_type_dependencies_recursive. -/
def addCaseDependencies (fromName : String) :
    List WitVariantCase → TypeDependencyGraph → TypeDependencyGraph
  | [], graph => graph
  | .mk _ (some payload) _ :: rest, graph =>
      addCaseDependencies fromName rest
        (addTypeDependenciesRecursive fromName payload graph .VariantPayload)
  | .mk _ none _ :: rest, graph => addCaseDependencies fromName rest graph
  termination_by cs _ => sizeOf cs

end

/-- lib.rs add_type_definition_dependencies: records and variants contribute
edges from the type name through fields and payloads; any other kind is fed
back through the recursive walk under FieldType. -/
def addTypeDefinitionDependencies (type_def : WitType) (graph : TypeDependencyGraph) :
    TypeDependencyGraph :=
  match type_def.kind with
  | .Record fields => addFieldDependencies type_def.name fields graph
  | .Variant cases => addCaseDependencies type_def.name cases graph
  | _ => addTypeDependenciesRecursive type_def.name type_def graph .FieldType

/-- Edge-building phase of lib.rs extract_type_dependencies: function
parameters and returns contribute edges from interface::function, type
definitions contribute their definition edges. -/
def buildTypeDependencyGraph (doc : WitDocument) : TypeDependencyGraph :=
  doc.interfaces.foldl
    (fun g iface =>
      let g1 := iface.functions.foldl
        (fun g f =>
          let g2 := f.parameters.foldl
            (fun g param =>
              addTypeDependenciesRecursive (iface.name ++ "::" ++ f.name)
                param.param_type g .FunctionParameter) g
          match f.return_type with
          | some ret =>
              addTypeDependenciesRecursive (iface.name ++ "::" ++ f.name)
                ret g2 .FunctionReturn
          | none => g2) g
      iface.types.foldl (fun g t => addTypeDefinitionDependencies t g) g1)
    TypeDependencyGraph.new

/-- First index of an element in a list, mirroring Iterator::position (returns
the length when absent; the cycle detector only queries present elements). -/
def positionOf (x : String) : List String → Nat
  | [] => 0
  | y :: l => if y = x then 0 else positionOf x l + 1

mutual

/-- lib.rs dfs_detect_cycles.  fuel bounds the depth of nested dfs calls; the
callers pass one more than the number of possibly-unvisited names, which is
never exhausted (dfsNode_fuel_eq below), so the function agrees with the
unbounded recursion of the source.  On entry the node is inserted into visited
and the recursion stack and pushed on the path; the stack/path removal at exit
is implicit in state passing. -/
def dfsNode (g : TypeDependencyGraph) (fuel : Nat) (node : String)
    (visited stack path : List String) (cycles : List CircularDependency) :
    List String × List CircularDependency :=
  match fuel with
  | 0 => (visited, cycles)
  | fuel + 1 =>
      dfsDeps g fuel (g.get_dependencies node) (node :: visited) (node :: stack)
        (path ++ [node]) cycles
  termination_by (fuel, 0)

/-- Dependency loop of dfs_detect_cycles: recurse into unvisited targets; a
visited target still on the recursion stack closes a cycle, recorded as the
path suffix from its first occurrence, with severity from the cycle length
(2 or less Info, 5 or less Warning, else Error). -/
def dfsDeps (g : TypeDependencyGraph) (fuel : Nat) (deps : List DependencyEdge)
    (visited stack path : List String) (cycles : List CircularDependency) :
    List String × List CircularDependency :=
  match deps with
  | [] => (visited, cycles)
  | d :: ds =>
      if d.tgt ∉ visited then
        let r := dfsNode g fuel d.tgt visited stack path cycles
        dfsDeps g fuel ds r.1 stack path r.2
      else if d.tgt ∈ stack then
        let cycle_start := positionOf d.tgt path
        let cycle := path.drop cycle_start
        let severity : CircularDependencySeverity :=
          if cycle.length ≤ 2 then .Info
          else if cycle.length ≤ 5 then .Warning
          else .Error
        dfsDeps g fuel ds visited stack path (cycles ++ [⟨cycle, severity⟩])
      else dfsDeps g fuel ds visited stack path cycles
  termination_by (fuel, deps.length + 1)

end

/-- Node loop of lib.rs detect_circular_dependencies: start a dfs at every
not-yet-visited node, threading visited and the detected cycles. -/
def detectLoop (g : TypeDependencyGraph) (fuel : Nat) :
    List String → List String → List CircularDependency →
      List String × List CircularDependency
  | [], visited, cycles => (visited, cycles)
  | n :: ns, visited, cycles =>
      if n ∉ visited then
        let r := dfsNode g fuel n visited [] [] cycles
        detectLoop g fuel ns r.1 r.2
      else detectLoop g fuel ns visited cycles

/-- Name universe the dfs can ever visit: the registered nodes plus all edge
targets. -/
def dfsUniverse (g : TypeDependencyGraph) : List String :=
  g.nodes ++ g.edges.map (fun e => e.tgt)

/-- lib.rs detect_circular_dependencies: run the dfs from every node and store
the detected cycles on the graph. -/
def detectCircularDependencies (g : TypeDependencyGraph) : TypeDependencyGraph :=
  { g with
    circular_dependencies :=
      (detectLoop g ((dfsUniverse g).length + 1) g.nodes [] []).2 }

/-- lib.rs WitProcessor::extract_type_dependencies: build the edge graph, then
detect cycles. -/
def extractTypeDependencies (doc : WitDocument) : TypeDependencyGraph :=
  detectCircularDependencies (buildTypeDependencyGraph doc)

/-- Severity the source derives from a cycle length. -/
def cycleSeverityOfLength (n : Nat) : CircularDependencySeverity :=
  if n ≤ 2 then .Info else if n ≤ 5 then .Warning else .Error

/-- Size-invariant for the dependency loop, given the invariant for dfs calls
at the same fuel. -/
theorem dfsDeps_severity_of (g : TypeDependencyGraph) (f : Nat)
    (H : ∀ node v s p c,
      (∀ cd ∈ c, cd.severity = cycleSeverityOfLength cd.cycle.length) →
      ∀ cd ∈ (dfsNode g f node v s p c).2,
        cd.severity = cycleSeverityOfLength cd.cycle.length) :
    ∀ deps v s p c,
      (∀ cd ∈ c, cd.severity = cycleSeverityOfLength cd.cycle.length) →
      ∀ cd ∈ (dfsDeps g f deps v s p c).2,
        cd.severity = cycleSeverityOfLength cd.cycle.length := by
  intro deps
  induction deps with
  | nil =>
      intro v s p c hc cd hcd
      simp only [dfsDeps] at hcd
      exact hc cd hcd
  | cons d ds ihd =>
      intro v s p c hc cd hcd
      simp only [dfsDeps] at hcd
      split at hcd
      · exact ihd _ _ _ _ (fun cd2 hcd2 => H d.tgt v s p c hc cd2 hcd2) cd hcd
      · split at hcd
        · refine ihd _ _ _ _ ?_ cd hcd
          intro cd2 hcd2
          rcases List.mem_append.mp hcd2 with h2 | h2
          · exact hc cd2 h2
          · simp only [List.mem_singleton] at h2
            subst h2
            rfl
        · exact ihd _ _ _ _ hc cd hcd

/-- Size-invariant: dfsNode only appends cycles whose severity is derived from
their length. -/
theorem dfsNode_severity (g : TypeDependencyGraph) :
    ∀ fuel node visited stack path cycles,
      (∀ cd ∈ cycles, cd.severity = cycleSeverityOfLength cd.cycle.length) →
      ∀ cd ∈ (dfsNode g fuel node visited stack path cycles).2,
        cd.severity = cycleSeverityOfLength cd.cycle.length := by
  intro fuel
  induction fuel with
  | zero =>
      intro node v s p c hc cd hcd
      simp only [dfsNode] at hcd
      exact hc cd hcd
  | succ f ih =>
      intro node v s p c hc cd hcd
      simp only [dfsNode] at hcd
      exact dfsDeps_severity_of g f ih _ _ _ _ _ hc cd hcd

/-- Size-invariant lifted through the node loop of
detect_circular_dependencies. -/
theorem detectLoop_severity (g : TypeDependencyGraph) (fuel : Nat) :
    ∀ ns visited cycles,
      (∀ cd ∈ cycles, cd.severity = cycleSeverityOfLength cd.cycle.length) →
      ∀ cd ∈ (detectLoop g fuel ns visited cycles).2,
        cd.severity = cycleSeverityOfLength cd.cycle.length := by
  intro ns
  induction ns with
  | nil =>
      intro v c hc cd hcd
      simpa [detectLoop] using hc cd hcd
  | cons n rest ih =>
      intro v c hc cd hcd
      simp only [detectLoop] at hcd
      split at hcd
      · exact ih _ _ (fun cd2 hcd2 => dfsNode_severity g fuel n v [] [] c hc cd2 hcd2) cd hcd
      · exact ih _ _ hc cd hcd

/-- C8: every circular dependency recorded by the cycle detector has severity
derived purely from the length of the cycle: Info when at most 2, Warning when
at most 5, Error otherwise. -/
theorem cycle_severity_from_length (doc : WitDocument) :
    ∀ cd ∈ (extractTypeDependencies doc).circular_dependencies,
      cd.severity = cycleSeverityOfLength cd.cycle.length := by
  intro cd hcd
  simp only [extractTypeDependencies, detectCircularDependencies] at hcd
  exact detectLoop_severity _ _ _ _ _ (by intro cd2 h; cases h) cd hcd

/-- The two-type reference loop document: A.field references B by name and
B.field references A. -/
def docAB : WitDocument :=
  mkTestDoc
    [⟨"i", [],
      [.mk "a" (.Record [.mk "fld" (.mk "bref" (.Reference "b") none) none]) none,
       .mk "b" (.Record [.mk "fld" (.mk "aref" (.Reference "a") none) none]) none],
      none⟩] []

/-- The literal graph the builder produces on docAB. -/
def graphAB : TypeDependencyGraph :=
  { nodes := ["a", "b"],
    edges := [{ src := "a", tgt := "b", dependency_type := .FieldType },
              { src := "b", tgt := "a", dependency_type := .FieldType }],
    circular_dependencies := [], usage_patterns := [] }

theorem build_docAB : buildTypeDependencyGraph docAB = graphAB := by
  simp [buildTypeDependencyGraph, addTypeDefinitionDependencies,
    addTypeDependenciesRecursive, addFieldDependencies, addCaseDependencies,
    addTupleDependencies, TypeDependencyGraph.new, TypeDependencyGraph.add_dependency,
    docAB, mkTestDoc, graphAB, WitType.kind, WitType.name]

theorem detect_graphAB : (extractTypeDependencies docAB).circular_dependencies =
    [⟨["a", "b"], CircularDependencySeverity.Info⟩] := by
  rw [extractTypeDependencies, build_docAB]
  simp [detectCircularDependencies, dfsUniverse, detectLoop, dfsNode, dfsDeps,
    TypeDependencyGraph.get_dependencies, positionOf, graphAB, List.filter]

/-- Witness for cycle_severity_from_length: the cycle detected in the two-type
reference loop document carries severity Info for its length of 2. -/
theorem cycle_severity_from_length_witness :
    (⟨["a", "b"], .Info⟩ : CircularDependency) ∈
      (extractTypeDependencies docAB).circular_dependencies ∧
    (⟨["a", "b"], .Info⟩ : CircularDependency).severity =
      cycleSeverityOfLength (⟨["a", "b"], .Info⟩ : CircularDependency).cycle.length := by
  have hmem : (⟨["a", "b"], .Info⟩ : CircularDependency) ∈
      (extractTypeDependencies docAB).circular_dependencies := by
    rw [detect_graphAB]
    simp
  exact ⟨hmem, cycle_severity_from_length docAB ⟨["a", "b"], .Info⟩ hmem⟩

/-! ## Soundness of cycle detection (C7) -/

/-- The one-step edge relation of a dependency graph. -/
def edgeRel (g : TypeDependencyGraph) (x y : String) : Prop :=
  ∃ e ∈ g.edges, e.src = x ∧ e.tgt = y

/-- A directed cycle in the edge relation: a chain from some node back to
itself with at least one edge. -/
def HasDirectedCycle (g : TypeDependencyGraph) : Prop :=
  ∃ x l, List.Chain' (edgeRel g) (x :: (l ++ [x]))

theorem positionOf_lt_length (x : String) (l : List String) (h : x ∈ l) :
    positionOf x l < l.length := by
  induction l with
  | nil => cases h
  | cons y rest ih =>
      simp only [positionOf, List.length_cons]
      split
      · omega
      · have hx : x ∈ rest := by
          rcases List.mem_cons.mp h with h1 | h1
          · simp_all
          · exact h1
        have := ih hx
        omega

theorem drop_positionOf (x : String) (l : List String) (h : x ∈ l) :
    l.drop (positionOf x l) = x :: l.drop (positionOf x l + 1) := by
  induction l with
  | nil => cases h
  | cons y rest ih =>
      simp only [positionOf]
      split
      · rename_i hyx
        subst hyx
        simp
      · rename_i hyx
        have hx : x ∈ rest := by
          rcases List.mem_cons.mp h with h1 | h1
          · exact absurd h1.symm hyx
          · exact h1
        simpa using ih hx

theorem chain'_drop {R : String → String → Prop} (n : Nat) :
    ∀ l : List String, List.Chain' R l → List.Chain' R (l.drop n) := by
  induction n with
  | zero => intro l h; simpa using h
  | succ n ih =>
      intro l h
      cases l with
      | nil => simp
      | cons a rest => simpa using ih rest h.tail

/-- Closing a back edge from the end of a chain to an element of the chain
yields a directed cycle. -/
theorem cycle_of_back_edge (g : TypeDependencyGraph) (path : List String) (t : String)
    (hchain : List.Chain' (edgeRel g) (path ++ [t]))
    (hmem : t ∈ path) : HasDirectedCycle g := by
  have hle : positionOf t path ≤ path.length :=
    Nat.le_of_lt (positionOf_lt_length t path hmem)
  have hdrop : (path ++ [t]).drop (positionOf t path) =
      path.drop (positionOf t path) ++ [t] :=
    List.drop_append_of_le_length hle
  have hchain2 : List.Chain' (edgeRel g) (path.drop (positionOf t path) ++ [t]) := by
    rw [← hdrop]
    exact chain'_drop _ _ hchain
  rw [drop_positionOf t path hmem] at hchain2
  exact ⟨t, path.drop (positionOf t path + 1), by simpa using hchain2⟩

/-- Genuineness of recorded cycles for the dependency loop, given genuineness
of dfs calls at the same fuel. -/
theorem dfsDeps_cycles_genuine_of (g : TypeDependencyGraph) (f : Nat)
    (H : ∀ node v s p c,
      List.Chain' (edgeRel g) (p ++ [node]) → (∀ y ∈ s, y ∈ p) →
      ∀ cd ∈ (dfsNode g f node v s p c).2, cd ∈ c ∨ HasDirectedCycle g) :
    ∀ deps v s p c,
      List.Chain' (edgeRel g) p →
      (∀ d ∈ deps, d ∈ g.edges ∧ p.getLast? = some d.src) →
      (∀ y ∈ s, y ∈ p) →
      ∀ cd ∈ (dfsDeps g f deps v s p c).2, cd ∈ c ∨ HasDirectedCycle g := by
  intro deps
  induction deps with
  | nil =>
      intro v s p c hchain hdeps hstack cd hcd
      simp only [dfsDeps] at hcd
      exact Or.inl hcd
  | cons d ds ihd =>
      intro v s p c hchain hdeps hstack cd hcd
      obtain ⟨hde, hdlast⟩ := hdeps d (by simp)
      have hdeps' : ∀ e ∈ ds, e ∈ g.edges ∧ p.getLast? = some e.src :=
        fun e he => hdeps e (by simp [he])
      have hlink : List.Chain' (edgeRel g) (p ++ [d.tgt]) := by
        rw [List.chain'_append]
        refine ⟨hchain, List.chain'_singleton _, ?_⟩
        intro x hx y hy
        simp only [List.head?_cons, Option.mem_def, Option.some.injEq] at hy
        rw [hdlast] at hx
        simp only [Option.mem_def, Option.some.injEq] at hx
        subst hx
        subst hy
        exact ⟨d, hde, rfl, rfl⟩
      simp only [dfsDeps] at hcd
      split at hcd
      · rcases ihd _ _ _ _ hchain hdeps' hstack cd hcd with h | h
        · exact H d.tgt v s p c hlink hstack cd h
        · exact Or.inr h
      · split at hcd
        · rename_i hvis hstk
          refine (ihd _ _ _ _ hchain hdeps' hstack cd hcd).elim ?_ Or.inr
          intro hin
          rcases List.mem_append.mp hin with h2 | h2
          · exact Or.inl h2
          · simp only [List.mem_singleton] at h2
            subst h2
            exact Or.inr (cycle_of_back_edge g p d.tgt hlink (hstack d.tgt hstk))
        · exact ihd _ _ _ _ hchain hdeps' hstack cd hcd

/-- Every cycle dfsNode records closes a real directed cycle in the graph. -/
theorem dfsNode_cycles_genuine (g : TypeDependencyGraph) :
    ∀ fuel node v s p c,
      List.Chain' (edgeRel g) (p ++ [node]) → (∀ y ∈ s, y ∈ p) →
      ∀ cd ∈ (dfsNode g fuel node v s p c).2, cd ∈ c ∨ HasDirectedCycle g := by
  intro fuel
  induction fuel with
  | zero =>
      intro node v s p c hchain hstack cd hcd
      simp only [dfsNode] at hcd
      exact Or.inl hcd
  | succ f ih =>
      intro node v s p c hchain hstack cd hcd
      simp only [dfsNode] at hcd
      refine dfsDeps_cycles_genuine_of g f ih _ _ _ _ _ hchain ?_ ?_ cd hcd
      · intro d hd
        simp only [TypeDependencyGraph.get_dependencies, List.mem_filter,
          decide_eq_true_eq] at hd
        exact ⟨hd.1, by rw [List.getLast?_concat, hd.2]⟩
      · intro y hy
        rcases List.mem_cons.mp hy with h1 | h1
        · simp [h1]
        · simp [hstack y h1]

/-- Every cycle the node loop records closes a real directed cycle. -/
theorem detectLoop_cycles_genuine (g : TypeDependencyGraph) (fuel : Nat) :
    ∀ ns v c,
      ∀ cd ∈ (detectLoop g fuel ns v c).2, cd ∈ c ∨ HasDirectedCycle g := by
  intro ns
  induction ns with
  | nil =>
      intro v c cd hcd
      simp only [detectLoop] at hcd
      exact Or.inl hcd
  | cons n rest ih =>
      intro v c cd hcd
      simp only [detectLoop] at hcd
      split at hcd
      · rcases ih _ _ cd hcd with h | h
        · exact dfsNode_cycles_genuine g fuel n v [] [] c (by simp) (by simp) cd h
        · exact Or.inr h
      · exact ih _ _ cd hcd

/-- A graph with no edges has no directed cycle. -/
theorem no_cycle_of_edges_nil (g : TypeDependencyGraph) (h : g.edges = []) :
    ¬ HasDirectedCycle g := by
  rintro ⟨x, l, hc⟩
  cases l with
  | nil =>
      simp only [List.nil_append, List.chain'_cons] at hc
      obtain ⟨⟨e, he, _⟩, _⟩ := hc
      rw [h] at he
      cases he
  | cons y rest =>
      simp only [List.cons_append, List.chain'_cons] at hc
      obtain ⟨⟨e, he, _⟩, _⟩ := hc
      rw [h] at he
      cases he

/-- C7: the two-record reference loop A.field: B, B.field: A yields exactly one
circular dependency, the cycle [a, b]; and for every document whose built
type-reference graph is acyclic, the detector reports no circular
dependencies. -/
theorem dependency_cycle_soundness :
    (extractTypeDependencies docAB).circular_dependencies =
      [⟨["a", "b"], .Info⟩] ∧
    ∀ doc : WitDocument, ¬ HasDirectedCycle (buildTypeDependencyGraph doc) →
      (extractTypeDependencies doc).circular_dependencies = [] := by
  constructor
  · exact detect_graphAB
  · intro doc hacyclic
    simp only [extractTypeDependencies, detectCircularDependencies]
    rw [List.eq_nil_iff_forall_not_mem]
    intro cd hcd
    rcases detectLoop_cycles_genuine (buildTypeDependencyGraph doc) _ _ _ _ cd hcd with
      h | h
    · cases h
    · exact hacyclic h

/-- Witness for the acyclic half of dependency_cycle_soundness: a document
with no interfaces builds an edgeless graph, which is acyclic, and the
detector reports no cycles on it. -/
theorem dependency_cycle_soundness_witness :
    ¬ HasDirectedCycle (buildTypeDependencyGraph (okDoc "w.wit")) ∧
    (extractTypeDependencies (okDoc "w.wit")).circular_dependencies = [] := by
  have hnil : (buildTypeDependencyGraph (okDoc "w.wit")).edges = [] := rfl
  have hac := no_cycle_of_edges_nil _ hnil
  exact ⟨hac, dependency_cycle_soundness.2 (okDoc "w.wit") hac⟩

/-! ## The dfs fuel is canonical: any fuel above the universe size gives the
same result, so the model agrees with the unbounded recursion of the source. -/

theorem dfsDeps_visited_mono_of (g : TypeDependencyGraph) (f : Nat)
    (H : ∀ node v s p c, v ⊆ (dfsNode g f node v s p c).1) :
    ∀ deps v s p c, v ⊆ (dfsDeps g f deps v s p c).1 := by
  intro deps
  induction deps with
  | nil => intro v s p c; simp only [dfsDeps]; exact fun _ h => h
  | cons d ds ihd =>
      intro v s p c
      simp only [dfsDeps]
      split
      · exact fun x hx => ihd _ _ _ _ (H d.tgt v s p c hx)
      · split
        · exact ihd _ _ _ _
        · exact ihd _ _ _ _

theorem dfsNode_visited_mono (g : TypeDependencyGraph) :
    ∀ fuel node v s p c, v ⊆ (dfsNode g fuel node v s p c).1 := by
  intro fuel
  induction fuel with
  | zero => intro node v s p c; simp only [dfsNode]; exact fun _ h => h
  | succ f ih =>
      intro node v s p c
      simp only [dfsNode]
      intro x hx
      exact dfsDeps_visited_mono_of g f ih _ _ _ _ _ (by simp [hx])

/-- Names of the universe not yet visited. -/
def unvisitedCount (U v : List String) : Nat :=
  (U.filter (fun x => decide (x ∉ v))).length

theorem filter_length_mono {α : Type} (p q : α → Bool) (h : ∀ a, q a = true → p a = true) :
    ∀ l : List α, (l.filter q).length ≤ (l.filter p).length := by
  intro l
  induction l with
  | nil => exact Nat.le_refl _
  | cons a rest ih =>
      rcases hq : q a with _ | _
      · rcases hp : p a with _ | _ <;>
          simp [List.filter_cons, hq, hp] <;> omega
      · simp [List.filter_cons, hq, h a hq]
        omega

theorem unvisitedCount_anti (U v v' : List String) (h : v ⊆ v') :
    unvisitedCount U v' ≤ unvisitedCount U v :=
  filter_length_mono _ _
    (fun a ha => by
      simp only [decide_eq_true_eq] at ha ⊢
      exact fun hav => ha (h hav)) U

theorem unvisitedCount_le_length (U v : List String) :
    unvisitedCount U v ≤ U.length :=
  List.length_filter_le _ U

theorem filter_length_lt {α : Type} (p q : α → Bool)
    (hmono : ∀ a, q a = true → p a = true) :
    ∀ (l : List α) (a : α), a ∈ l → p a = true → q a = false →
      (l.filter q).length < (l.filter p).length := by
  intro l
  induction l with
  | nil => intro a ha; cases ha
  | cons b rest ih =>
      intro a ha hpa hqa
      rcases List.mem_cons.mp ha with hba | harest
      · subst hba
        have hle := filter_length_mono p q hmono rest
        simp only [List.filter_cons, hpa, hqa]
        simp only [Bool.false_eq_true, if_false, if_true, List.length_cons]
        omega
      · have hlt := ih a harest hpa hqa
        rcases hqb : q b with _ | _
        · rcases hpb : p b with _ | _ <;>
            simp only [List.filter_cons, hqb, hpb, Bool.false_eq_true, if_false,
              if_true, List.length_cons] <;> omega
        · have hpb := hmono b hqb
          simp only [List.filter_cons, hqb, hpb, if_true, List.length_cons]
          omega

theorem unvisitedCount_insert_lt (U : List String) (x : String) (v : List String)
    (hxU : x ∈ U) (hxv : x ∉ v) :
    unvisitedCount U (x :: v) < unvisitedCount U v := by
  refine filter_length_lt _ _ ?_ U x hxU ?_ ?_
  · intro a ha
    simp only [decide_eq_true_eq, List.mem_cons, not_or] at ha ⊢
    exact ha.2
  · simpa using hxv
  · simp

theorem dfsDeps_fuel_eq_of (g : TypeDependencyGraph) (U : List String)
    (f₁ f₂ : Nat)
    (H : ∀ node v s p c, node ∈ U → node ∉ v →
      unvisitedCount U v < f₁ → unvisitedCount U v < f₂ →
      dfsNode g f₁ node v s p c = dfsNode g f₂ node v s p c)
    (hU : ∀ e ∈ g.edges, e.tgt ∈ U) :
    ∀ deps v s p c, (∀ d ∈ deps, d ∈ g.edges) →
      unvisitedCount U v < f₁ → unvisitedCount U v < f₂ →
      dfsDeps g f₁ deps v s p c = dfsDeps g f₂ deps v s p c := by
  intro deps
  induction deps with
  | nil => intro v s p c _ _ _; simp only [dfsDeps]
  | cons d ds ihd =>
      intro v s p c hdeps h₁ h₂
      have hde : d ∈ g.edges := hdeps d (by simp)
      have hds : ∀ e ∈ ds, e ∈ g.edges := fun e he => hdeps e (by simp [he])
      simp only [dfsDeps]
      split
      · rename_i hvis
        rw [H d.tgt v s p c (hU d hde) hvis h₁ h₂]
        have hsub : v ⊆ (dfsNode g f₂ d.tgt v s p c).1 := dfsNode_visited_mono g f₂ d.tgt v s p c
        have hcnt := unvisitedCount_anti U v _ hsub
        exact ihd _ _ _ _ hds (by omega) (by omega)
      · split
        · exact ihd _ _ _ _ hds h₁ h₂
        · exact ihd _ _ _ _ hds h₁ h₂

theorem dfsNode_fuel_eq (g : TypeDependencyGraph) (U : List String)
    (hU : ∀ e ∈ g.edges, e.tgt ∈ U) :
    ∀ f₁ f₂ node v s p c, node ∈ U → node ∉ v →
      unvisitedCount U v < f₁ → unvisitedCount U v < f₂ →
      dfsNode g f₁ node v s p c = dfsNode g f₂ node v s p c := by
  intro f₁
  induction f₁ with
  | zero => intro f₂ node v s p c _ _ h₁ _; omega
  | succ f₁ ih =>
      intro f₂ node v s p c hnU hnv h₁ h₂
      cases f₂ with
      | zero => omega
      | succ f₂ =>
          simp only [dfsNode]
          have hlt := unvisitedCount_insert_lt U node v hnU hnv
          exact dfsDeps_fuel_eq_of g U f₁ f₂
            (fun node2 v2 s2 p2 c2 hU2 hv2 ha hb => ih f₂ node2 v2 s2 p2 c2 hU2 hv2 ha hb)
            hU _ _ _ _ _
            (fun d hd => (List.mem_filter.mp hd).1)
            (by omega) (by omega)

theorem detectLoop_fuel_eq (g : TypeDependencyGraph) (f₁ f₂ : Nat)
    (h₁ : (dfsUniverse g).length < f₁) (h₂ : (dfsUniverse g).length < f₂) :
    ∀ ns v c, (∀ n ∈ ns, n ∈ dfsUniverse g) →
      detectLoop g f₁ ns v c = detectLoop g f₂ ns v c := by
  have hU : ∀ e ∈ g.edges, e.tgt ∈ dfsUniverse g := by
    intro e he
    simp [dfsUniverse]
    right
    exact ⟨e, he, rfl⟩
  intro ns
  induction ns with
  | nil => intro v c _; simp only [detectLoop]
  | cons n rest ih =>
      intro v c hns
      simp only [detectLoop]
      split
      · rename_i hnv
        rw [dfsNode_fuel_eq g (dfsUniverse g) hU f₁ f₂ n v [] [] c
          (hns n (by simp)) hnv
          (by have := unvisitedCount_le_length (dfsUniverse g) v; omega)
          (by have := unvisitedCount_le_length (dfsUniverse g) v; omega)]
        exact ih _ _ (fun m hm => hns m (by simp [hm]))
      · exact ih _ _ (fun m hm => hns m (by simp [hm]))

/-- The fuel used by detectCircularDependencies is canonical: any fuel beyond
the universe size produces the same detection result, so the fuel never runs
out and the model coincides with the unbounded source recursion. -/
theorem detect_fuel_irrelevant (g : TypeDependencyGraph) (f : Nat)
    (hf : (dfsUniverse g).length < f) :
    (detectLoop g f g.nodes [] []).2 =
      (detectCircularDependencies g).circular_dependencies := by
  simp only [detectCircularDependencies]
  rw [detectLoop_fuel_eq g f ((dfsUniverse g).length + 1) hf (Nat.lt_succ_self _)
    g.nodes [] [] (fun n hn => by simp [dfsUniverse, hn])]

/-! ## Compatibility analyzer: type diffing (lib.rs) -/

mutual

/-- lib.rs types_differ: structural comparison of two type kinds; different
kind discriminants always differ, same-kind containers compare recursively,
names of the compared type definitions themselves are ignored. -/
def types_differ : WitType → WitType → Bool
  | .mk _ (.Primitive a) _, .mk _ (.Primitive b) _ => a ≠ b
  | .mk _ (.Reference a) _, .mk _ (.Reference b) _ => a ≠ b
  | .mk _ (.List a) _, .mk _ (.List b) _ => types_differ a b
  | .mk _ (.Option a) _, .mk _ (.Option b) _ => types_differ a b
  | .mk _ (.Tuple a) _, .mk _ (.Tuple b) _ => tupleTypesDiffer a b
  | .mk _ (.Record a) _, .mk _ (.Record b) _ => recordFieldsDiffer a b
  | .mk _ (.Variant a) _, .mk _ (.Variant b) _ => variantCasesDiffer a b
  | .mk _ (.Enum a) _, .mk _ (.Enum b) _ => a ≠ b
  | _, _ => true
  termination_by t _ => sizeOf t

/-- Element-wise comparison for Tuple: length mismatch or any differing pair
(lib.rs a.len() != b.len() || zip-any). -/
def tupleTypesDiffer : List WitType → List WitType → Bool
  | [], [] => false
  | x :: xs, y :: ys => types_differ x y || tupleTypesDiffer xs ys
  | _, _ => true
  termination_by ts _ => sizeOf ts

/-- Field-wise comparison for Record: length mismatch, name mismatch, or
differing field types. -/
def recordFieldsDiffer : List WitField → List WitField → Bool
  | [], [] => false
  | .mk n1 t1 _ :: xs, .mk n2 t2 _ :: ys =>
      n1 ≠ n2 || types_differ t1 t2 || recordFieldsDiffer xs ys
  | _, _ => true
  termination_by fs _ => sizeOf fs

/-- Case-wise comparison for Variant: length mismatch, name mismatch, payload
presence mismatch, or differing payloads. -/
def variantCasesDiffer : List WitVariantCase → List WitVariantCase → Bool
  | [], [] => false
  | .mk n1 p1 _ :: xs, .mk n2 p2 _ :: ys =>
      n1 ≠ n2 ||
      (match p1, p2 with
       | none, none => false
       | some a, some b => types_differ a b
       | _, _ => true) ||
      variantCasesDiffer xs ys
  | _, _ => true
  termination_by cs _ => sizeOf cs

end

/-- One character of the Rust Debug string escape (modelled for the escapes of
the characters appearing in WIT identifiers and type text: backslash, quote,
newline, carriage return, tab; other characters print as themselves). -/
def escapeDebugChar (c : Char) : String :=
  if c = '\\' then "\\\\"
  else if c = '"' then "\\\""
  else if c = '\n' then "\\n"
  else if c = '\r' then "\\r"
  else if c = '\t' then "\\t"
  else String.singleton c

/-- Rust Debug rendering of a string: double-quoted and escaped. -/
def rustDebugStr (s : String) : String :=
  "\"" ++ String.join (s.toList.map escapeDebugChar) ++ "\""

/-- Rust Debug rendering of Option of String. -/
def rustDebugOptStr : Option String → String
  | none => "None"
  | some s => "Some(" ++ rustDebugStr s ++ ")"

mutual

/-- Rust derive(Debug) rendering of WitTypeKind, as produced by the
format!("\x7b:?\x7d", ...) calls of lib.rs analyze_type_change. -/
def rustDebugKind : WitTypeKind → String
  | .Primitive s => "Primitive(" ++ rustDebugStr s ++ ")"
  | .Record fields =>
      "Record([" ++
        String.intercalate ", " (fields.attach.map (fun x =>
          match x with
          | ⟨f, hmem⟩ => rustDebugField f)) ++ "])"
  | .Variant cases =>
      "Variant([" ++
        String.intercalate ", " (cases.attach.map (fun x =>
          match x with
          | ⟨c, hmem⟩ => rustDebugCase c)) ++ "])"
  | .Enum values =>
      "Enum([" ++ String.intercalate ", " (values.map rustDebugStr) ++ "])"
  | .List t => "List(" ++ rustDebugType t ++ ")"
  | .Option t => "Option(" ++ rustDebugType t ++ ")"
  | .Result (some okT) (some errT) =>
      "Result \x7b ok: Some(" ++ rustDebugType okT ++ "), err: Some(" ++
        rustDebugType errT ++ ") \x7d"
  | .Result (some okT) none =>
      "Result \x7b ok: Some(" ++ rustDebugType okT ++ "), err: None \x7d"
  | .Result none (some errT) =>
      "Result \x7b ok: None, err: Some(" ++ rustDebugType errT ++ ") \x7d"
  | .Result none none => "Result \x7b ok: None, err: None \x7d"
  | .Tuple types =>
      "Tuple([" ++
        String.intercalate ", " (types.attach.map (fun x =>
          match x with
          | ⟨t, hmem⟩ => rustDebugType t)) ++ "])"
  | .Reference s => "Reference(" ++ rustDebugStr s ++ ")"
  termination_by k => sizeOf k

/-- Rust derive(Debug) rendering of WitType. -/
def rustDebugType : WitType → String
  | .mk name kind documentation =>
      "WitType \x7b name: " ++ rustDebugStr name ++ ", kind: " ++ rustDebugKind kind ++
        ", documentation: " ++ rustDebugOptStr documentation ++ " \x7d"
  termination_by t => sizeOf t

/-- Rust derive(Debug) rendering of WitField. -/
def rustDebugField : WitField → String
  | .mk name ftype documentation =>
      "WitField \x7b name: " ++ rustDebugStr name ++ ", field_type: " ++
        rustDebugType ftype ++ ", documentation: " ++ rustDebugOptStr documentation ++
        " \x7d"
  termination_by f => sizeOf f

/-- Rust derive(Debug) rendering of WitVariantCase. -/
def rustDebugCase : WitVariantCase → String
  | .mk name payload documentation =>
      "WitVariantCase \x7b name: " ++ rustDebugStr name ++ ", payload: " ++
        (match payload with
         | none => "None"
         | some p => "Some(" ++ rustDebugType p ++ ")") ++
        ", documentation: " ++ rustDebugOptStr documentation ++ " \x7d"
  termination_by c => sizeOf c

end

/-- lib.rs analyze_type_change: same-kind record, variant and enum changes
carry empty change lists; every other combination is a KindChanged carrying
the Debug-formatted old and new kinds. -/
def analyzeTypeChange (old newT : WitType) : TypeChange :=
  match old.kind, newT.kind with
  | .Record _, .Record _ => .RecordChanged []
  | .Variant _, .Variant _ => .VariantChanged []
  | .Enum _, .Enum _ => .EnumChanged []
  | _, _ => .KindChanged (rustDebugKind old.kind) (rustDebugKind newT.kind)

/-- Kind discriminators used to state which arm analyze_type_change takes. -/
def WitTypeKind.isRecord : WitTypeKind → Bool
  | .Record _ => true
  | _ => false

def WitTypeKind.isVariant : WitTypeKind → Bool
  | .Variant _ => true
  | _ => false

def WitTypeKind.isEnum : WitTypeKind → Bool
  | .Enum _ => true
  | _ => false

/-- Same-discriminant record/variant/enum pairing. -/
def sameRVEKind (a b : WitTypeKind) : Bool :=
  (a.isRecord && b.isRecord) || (a.isVariant && b.isVariant) || (a.isEnum && b.isEnum)

/-- C10: when the two compared type definitions structurally differ, the
TypeChange payload analyze_type_change produces carries an always-empty change
list whenever the kind discriminants agree on record, variant or enum, and
per-item detail appears only in the KindChanged case, as the Debug-formatted
old and new kind strings. -/
theorem modified_type_change_payload (old newT : WitType)
    (hdiff : types_differ old newT = true) :
    ((old.kind.isRecord && newT.kind.isRecord) = true →
      analyzeTypeChange old newT = .RecordChanged []) ∧
    ((old.kind.isVariant && newT.kind.isVariant) = true →
      analyzeTypeChange old newT = .VariantChanged []) ∧
    ((old.kind.isEnum && newT.kind.isEnum) = true →
      analyzeTypeChange old newT = .EnumChanged []) ∧
    (sameRVEKind old.kind newT.kind = false →
      analyzeTypeChange old newT =
        .KindChanged (rustDebugKind old.kind) (rustDebugKind newT.kind)) := by
  obtain ⟨n1, k1, d1⟩ := old
  obtain ⟨n2, k2, d2⟩ := newT
  refine ⟨?_, ?_, ?_, ?_⟩ <;>
    cases k1 <;> cases k2 <;>
      simp [analyzeTypeChange, WitType.kind, WitTypeKind.isRecord, WitTypeKind.isVariant,
        WitTypeKind.isEnum, sameRVEKind]

/-- Concrete record types for the C10 witness: same field name, u32 vs u64. -/
def recordTypeOld : WitType :=
  .mk "t" (.Record [.mk "x" (.mk "p" (.Primitive "u32") none) none]) none

def recordTypeNew : WitType :=
  .mk "t" (.Record [.mk "x" (.mk "p" (.Primitive "u64") none) none]) none

/-- Witness for modified_type_change_payload: two structurally different
records produce RecordChanged with an empty change list. -/
theorem modified_type_change_payload_witness :
    types_differ recordTypeOld recordTypeNew = true ∧
    (recordTypeOld.kind.isRecord && recordTypeNew.kind.isRecord) = true ∧
    analyzeTypeChange recordTypeOld recordTypeNew = .RecordChanged [] := by
  have hdiff : types_differ recordTypeOld recordTypeNew = true := by
    simp [types_differ, recordFieldsDiffer, recordTypeOld, recordTypeNew]
  exact ⟨hdiff, rfl,
    (modified_type_change_payload recordTypeOld recordTypeNew hdiff).1 rfl⟩
